import Mathlib

/-!
Shallow embedding of the icos combat engine core (`src/engine/...`) and proofs
of the specification claims about it.

Conventions of the embedding:
* Python `int` is `Int`; die faces are `Nat`.
* Python's seeded `random.Random` is modelled as an abstract stream of values
  together with a position; each primitive draw consumes one stream element.
  Uniformity of a draw is modelled by reducing the stream value modulo the
  range size; reproducibility is definitional (the embedding is pure).
* Dice-notation strings ("2d6+3") are modelled in parsed form (`DiceExpr`,
  from `engine/dice.py`); `Dice.roll(s)` in the source is
  `roll_expr (parse_dice s)`, and the parser is not needed by any claim,
  so expressions are carried already parsed.
* Mutation of `Combatant` objects held by a `CombatState` is modelled by
  rebuilding the roster with the combatant of that id replaced.
* Fallible code (raising `KeyError` / `ValueError` / `IndexError`) returns
  `Option` / `Except`.
-/

namespace Icos

/-! ### engine/dice.py -/

/-- Parsed dice expression, from `DiceExpr` in `engine/dice.py`
(`num_dice`, `sides`, `modifier` of "NdS+K"). -/
structure DiceExpr where
  num_dice : Nat
  sides : Nat
  modifier : Int
deriving Repr, DecidableEq

/-- Canonical rendering of a dice expression back to notation (the source keeps
the original notation string; claims never depend on its exact spelling). -/
def DiceExpr.render (e : DiceExpr) : String :=
  toString e.num_dice ++ "d" ++ toString e.sides ++
    (if 0 < e.modifier then "+" ++ toString e.modifier
     else if e.modifier < 0 then toString e.modifier
     else "")

/-- `RollResult` from `engine/dice.py` (the source also carries the original
notation string, rendered canonically here as `nota`). -/
structure RollResult where
  total : Int
  rolls : List Nat
  modifier : Int
  nota : String
deriving Repr, DecidableEq

/-- The seedable random source (`Dice` in `engine/dice.py`): an abstract stream
of naturals plus a cursor; each die roll consumes one stream element. -/
structure Dice where
  stream : Nat → Nat
  pos : Nat

/-- `Dice.roll_die`: roll one die with `sides` faces, uniform over `1..sides`
(modelled as stream value mod `sides`, plus one). -/
def Dice.roll_die (d : Dice) (sides : Nat) : Nat × Dice :=
  (d.stream d.pos % sides + 1, ⟨d.stream, d.pos + 1⟩)

/-- Roll `n` dice of `sides` faces in sequence, collecting individual results. -/
def Dice.rollN : Dice → Nat → Nat → List Nat × Dice
  | d, 0, _ => ([], d)
  | d, n + 1, sides =>
    let (r, d1) := d.roll_die sides
    let (rs, d2) := d1.rollN n sides
    (r :: rs, d2)

/-- `Dice.roll_expr`: roll a pre-parsed dice expression
(`total = sum of dice + modifier`). `Dice.roll(s)` in the source is this
composed with `parse_dice`. -/
def Dice.roll_expr (d : Dice) (e : DiceExpr) : RollResult × Dice :=
  let (rolls, d1) := d.rollN e.num_dice e.sides
  (⟨(rolls.sum : Int) + e.modifier, rolls, e.modifier, e.render⟩, d1)

/-- `Dice.d20`. -/
def Dice.d20 (d : Dice) : Nat × Dice :=
  d.roll_die 20

/-- `Dice.d20_advantage`: roll 2d20, take the higher; returns the underlying pair. -/
def Dice.d20_advantage (d : Dice) : Nat × (Nat × Nat) × Dice :=
  let (a, d1) := d.d20
  let (b, d2) := d1.d20
  ((if b ≤ a then a else b), (a, b), d2)

/-- `Dice.d20_disadvantage`: roll 2d20, take the lower. -/
def Dice.d20_disadvantage (d : Dice) : Nat × (Nat × Nat) × Dice :=
  let (a, d1) := d.d20
  let (b, d2) := d1.d20
  ((if a ≤ b then a else b), (a, b), d2)

/-- Advantage state; the source normalizes the strings
`"normal" | "adv" | "dis"` (the resolution engine only ever passes
`"normal"` or `"dis"`). -/
inductive AdvState where
  | normal
  | adv
  | dis
deriving Repr, DecidableEq

/-- `Dice.d20_with_adv_state`: chosen roll plus all underlying rolls. -/
def Dice.d20_with_adv_state (d : Dice) (st : AdvState) : Nat × List Nat × Dice :=
  match st with
  | .normal =>
    let (r, d1) := d.d20
    (r, [r], d1)
  | .adv =>
    let (c, p, d1) := d.d20_advantage
    (c, [p.1, p.2], d1)
  | .dis =>
    let (c, p, d1) := d.d20_disadvantage
    (c, [p.1, p.2], d1)

/-! ### engine/models/core.py, actions.py, actors.py, events.py -/

/-- `ability_mod` from `engine/models/core.py`: `(score - 10) // 2` with
Python floor division. -/
def ability_mod (score : Int) : Int :=
  (score - 10).fdiv 2

/-- `AttackProfile` from `engine/models/actions.py` (damage notation carried
parsed). -/
structure AttackProfile where
  name : String
  attack_bonus : Int
  damage_dice : DiceExpr
  damage_type : String
deriving Repr, DecidableEq

/-- Action kind (`ActionType` literal set `attack|defend|heal|wait`). -/
inductive ActionType where
  | attack
  | defend
  | heal
  | wait
deriving Repr, DecidableEq

/-- `ActionDeclaration` from `engine/models/actions.py`. The open `data`
mapping is only ever consulted for its `"heal_dice"` entry, modelled here as
`heal_dice_data`. -/
structure ActionDeclaration where
  actor_id : String
  type : ActionType
  target_ids : List String := []
  attack_index : Nat := 0
  heal_dice_data : Option DiceExpr := none
deriving Repr, DecidableEq

/-- `Combatant` from `engine/models/actors.py` (runtime fields; `flags` is a
set of status strings, modelled as a duplicate-free list). -/
structure Combatant where
  id : String
  name : String
  team : String
  ac : Int
  max_hp : Int
  hp : Int
  dex : Int
  attacks : List AttackProfile := []
  flags : List String := []
  heals_remaining : Int := 0
  heal_dice : DiceExpr := ⟨1, 8, 2⟩
deriving Repr, DecidableEq

/-- `Combatant.dex_mod`. -/
def Combatant.dex_mod (c : Combatant) : Int :=
  ability_mod c.dex

/-- `Combatant.alive`: `hp > 0`. -/
def Combatant.alive (c : Combatant) : Prop :=
  0 < c.hp

instance (c : Combatant) : Decidable c.alive :=
  inferInstanceAs (Decidable (0 < c.hp))

/-- `Combatant.choose_attack`: select attack profile by index
(`ValueError` / `IndexError` on empty list or out-of-range become `none`). -/
def Combatant.choose_attack (c : Combatant) (index : Nat) : Option AttackProfile :=
  if c.attacks.isEmpty then none
  else c.attacks.get? index

/-- Add a flag to the flag set (`set.add`). -/
def Combatant.addFlag (c : Combatant) (f : String) : Combatant :=
  if f ∈ c.flags then c else { c with flags := f :: c.flags }

/-- Remove a flag from the flag set (`set.discard`). -/
def Combatant.discardFlag (c : Combatant) (f : String) : Combatant :=
  { c with flags := c.flags.erase f }

/-- `Combatant.__post_init__` guardrails: reject non-positive `max_hp` / `ac`,
silently coerce out-of-range `hp` into `[0, max_hp]`. -/
def mkCombatant (id name team : String) (ac max_hp hp dex : Int)
    (attacks : List AttackProfile) (heals_remaining : Int) (heal_dice : DiceExpr) :
    Except String Combatant :=
  if max_hp ≤ 0 then .error "max_hp must be > 0"
  else if ac ≤ 0 then .error "ac must be > 0"
  else
    let hp1 := if hp < 0 then 0 else hp
    let hp2 := if max_hp < hp1 then max_hp else hp1
    .ok ⟨id, name, team, ac, max_hp, hp2, dex, attacks, [], heals_remaining, heal_dice⟩

/-- Values carried in an `Event.data` attribute bag. -/
inductive EData where
  | i (n : Int)
  | s (v : String)
  | b (v : Bool)
  | ns (v : List Nat)
  | expr (e : DiceExpr)
deriving Repr, DecidableEq

/-- `Event` from `engine/models/events.py` (the `type` literal set is kept as
strings; `data` is an association list). -/
structure Event where
  type : String
  actor : Option String := none
  target : Option String := none
  message : String := ""
  data : List (String × EData) := []
deriving Repr, DecidableEq

/-! ### engine/state.py -/

/-- `CombatState` from `engine/state.py`. The id-indexed lookup dict is
recomputed from the roster (duplicate-id detection is a construction-time
check not needed by any claim). -/
structure CombatState where
  combatants : List Combatant
  round_num : Int := 1
  turn_index : Nat := 0
  initiative_order : List String := []
deriving Repr, DecidableEq

/-- `CombatState.get`: id lookup (`KeyError` becomes `none`). -/
def CombatState.get (s : CombatState) (cid : String) : Option Combatant :=
  s.combatants.find? (fun c => c.id == cid)

/-- Model of in-place mutation of the combatant object with id `c.id`:
replace it in the roster. -/
def CombatState.setCombatant (s : CombatState) (c : Combatant) : CombatState :=
  { s with combatants := s.combatants.map (fun x => if x.id == c.id then c else x) }

/-- `CombatState.alive_combatants`. -/
def CombatState.alive_combatants (s : CombatState) : List Combatant :=
  s.combatants.filter (fun c => c.alive)

/-- `CombatState.alive_teams` (a set; modelled as the deduplicated list of
teams of living combatants). -/
def CombatState.alive_teams (s : CombatState) : List String :=
  ((s.combatants.filter (fun c => c.alive)).map (fun c => c.team)).dedup

/-- `CombatState.is_over`: at most one team still has a living member. -/
def CombatState.is_over (s : CombatState) : Prop :=
  s.alive_teams.length ≤ 1

instance (s : CombatState) : Decidable s.is_over :=
  inferInstanceAs (Decidable (s.alive_teams.length ≤ 1))

/-- `CombatState.winner_team`. -/
def CombatState.winner_team (s : CombatState) : Option String :=
  if s.alive_teams.length = 1 then s.alive_teams.head? else none

/-- `CombatState.advance_turn`: next initiative index, wrapping to 0 and
bumping the round counter (`ValueError` on empty order becomes `none`). -/
def CombatState.advance_turn (s : CombatState) : Option CombatState :=
  if s.initiative_order.isEmpty then none
  else
    let i := s.turn_index + 1
    if s.initiative_order.length ≤ i then
      some { s with turn_index := 0, round_num := s.round_num + 1 }
    else some { s with turn_index := i }

/-- `CombatState.current_turn_id` (`ValueError` / `KeyError` become `none`). -/
def CombatState.current_turn_id (s : CombatState) : Option String :=
  match s.initiative_order.get? s.turn_index with
  | none => none
  | some cid => if (s.get cid).isSome then some cid else none

/-! ### engine/systems/combat/resolution.py — the resolution engine

`RulesEngine` holds only the dice; its methods are embedded as functions
threading the `Dice` value explicitly. -/

/-- Initiative roll record `(total, dex_mod, id, name)` as built by
`roll_initiative`. -/
abbrev InitRoll := Int × Int × String × String

/-- Descending lexicographic order on the sort key `(total, dex_mod, name)`
used by `rolls.sort(key=lambda x: (x[0], x[1], x[3]), reverse=True)`
(`a` may precede `b` iff `a`'s key is lexicographically ≥ `b`'s). -/
def initKeyGe (a b : InitRoll) : Prop :=
  b.1 < a.1 ∨ (a.1 = b.1 ∧ (b.2.1 < a.2.1 ∨ (a.2.1 = b.2.1 ∧ b.2.2.2 ≤ a.2.2.2)))

instance (a b : InitRoll) : Decidable (initKeyGe a b) := by
  unfold initKeyGe; infer_instance

/-- Stable insert for a descending sort: walk past entries whose key is ≥ the
new entry's key (so equal keys keep their original relative order, as
Python's stable `list.sort` does). -/
def insDesc (x : InitRoll) : List InitRoll → List InitRoll
  | [] => [x]
  | y :: t => if initKeyGe y x then y :: insDesc x t else x :: y :: t

/-- Stable descending sort modelling `list.sort(key=..., reverse=True)`. -/
def sortDesc (l : List InitRoll) : List InitRoll :=
  l.foldl (fun acc x => insDesc x acc) []

/-- The d20+dex_mod pass of `roll_initiative`: one roll record and one
"initiative" event per combatant, in roster order. -/
def initRolls (d : Dice) : List Combatant → List InitRoll × List Event × Dice
  | [] => ([], [], d)
  | c :: cs =>
    let (r, d1) := d.d20
    let total : Int := (r : Int) + c.dex_mod
    let ev : Event :=
      { type := "initiative", actor := some c.id,
        message := c.name ++ " rolls initiative: d20+" ++ toString c.dex_mod
          ++ " = " ++ toString total,
        data := [("total", .i total), ("dex_mod", .i c.dex_mod)] }
    let (rs, evs, d2) := initRolls d1 cs
    ((total, c.dex_mod, c.id, c.name) :: rs, ev :: evs, d2)

/-- `RulesEngine.roll_initiative`: roll for every combatant, sort the records
descending by `(total, dex_mod, name)`, return the id order plus events. -/
def roll_initiative (d : Dice) (combatants : List Combatant) :
    List String × List Event × Dice :=
  let (rolls, events, d1) := initRolls d combatants
  ((sortDesc rolls).map (fun r => r.2.2.1), events, d1)

/-- `RulesEngine._resolve_defend`. -/
def resolve_defend (s : CombatState) (a : ActionDeclaration) (d : Dice) :
    Option (CombatState × List Event × Dice) :=
  match s.get a.actor_id with
  | none => none
  | some actor =>
    if actor.alive then
      some (s.setCombatant (actor.addFlag "defending"),
        [{ type := "turn_start", actor := some actor.id,
           message := actor.name ++ " takes a defensive stance (attacks against them have disadvantage until their next turn).",
           data := [("flag_added", .s "defending")] }], d)
    else some (s, [], d)

/-- The informational event emitted by `_resolve_heal` when no heal charges
remain. -/
def healNoChargesEvent (actor : Combatant) : Event :=
  { type := "turn_start", actor := some actor.id,
    message := actor.name ++ " tries to heal but has no heals remaining.",
    data := [("heals_remaining", .i actor.heals_remaining)] }

/-- `RulesEngine._resolve_heal` (resolution engine version): dead actor is a
silent no-op; with no charges left, an informational event and no state
change; otherwise roll the heal dice (action override or the combatant's
default), cap hp at `max_hp`, decrement the charge counter. -/
def resolve_heal (s : CombatState) (a : ActionDeclaration) (d : Dice) :
    Option (CombatState × List Event × Dice) :=
  match s.get a.actor_id with
  | none => none
  | some actor =>
    if actor.alive then
      if actor.heals_remaining ≤ 0 then
        some (s, [healNoChargesEvent actor], d)
      else
        let heal_dice := a.heal_dice_data.getD actor.heal_dice
        let (roll, d1) := d.roll_expr heal_dice
        let before := actor.hp
        let newHp := min actor.max_hp (actor.hp + roll.total)
        let healed := newHp - before
        let actor1 := { actor with hp := newHp, heals_remaining := actor.heals_remaining - 1 }
        some (s.setCombatant actor1,
          [{ type := "damage", actor := some actor.id,
             message := actor.name ++ " heals for " ++ toString healed
               ++ " (rolled " ++ heal_dice.render ++ " => " ++ toString roll.total
               ++ "). HP " ++ toString before ++ " -> " ++ toString newHp
               ++ " | heals left: " ++ toString actor1.heals_remaining,
             data := [("heal", .i healed), ("hp_before", .i before),
               ("hp_after", .i newHp), ("heal_dice", .expr heal_dice),
               ("heals_remaining", .i actor1.heals_remaining)] }], d1)
    else some (s, [], d)

/-- `RulesEngine._resolve_wait`. -/
def resolve_wait (s : CombatState) (a : ActionDeclaration) (d : Dice) :
    Option (CombatState × List Event × Dice) :=
  match s.get a.actor_id with
  | none => none
  | some actor =>
    if actor.alive then
      some (s, [{ type := "turn_start", actor := some actor.id,
                  message := actor.name ++ " waits." }], d)
    else some (s, [], d)

/-- `RulesEngine._roll_damage`: one roll of the damage expression, or — on a
critical hit — two independent rolls of the full expression summed. -/
def roll_damage (e : DiceExpr) (is_crit : Bool) (d : Dice) : Int × String × Dice :=
  if is_crit then
    let (r1, d1) := d.roll_expr e
    let (r2, d2) := d1.roll_expr e
    (r1.total + r2.total,
      e.render ++ " crit => " ++ toString r1.total ++ " + " ++ toString r2.total
        ++ " = " ++ toString (r1.total + r2.total), d2)
  else
    let (r, d1) := d.roll_expr e
    (r.total, e.render ++ " => " ++ toString r.total, d1)

/-- The "attack_roll" event of `_resolve_attack`. -/
def attackRollEvent (attacker defender : Combatant) (atk : AttackProfile)
    (st : AdvState) (d20v : Nat) (underlying : List Nat) : Event :=
  { type := "attack_roll", actor := some attacker.id, target := some defender.id,
    message :=
      attacker.name ++ " uses " ++ atk.name ++ ": d20("
        ++ String.intercalate ", " (underlying.map toString) ++ ") -> "
        ++ toString d20v ++ " + " ++ toString atk.attack_bonus ++ " = "
        ++ toString ((d20v : Int) + atk.attack_bonus) ++ " vs AC "
        ++ toString defender.ac
        ++ (if st = .dis then " (DISADVANTAGE)" else ""),
    data := [("underlying_d20", .ns underlying), ("chosen_d20", .i d20v),
      ("attack_bonus", .i atk.attack_bonus),
      ("total", .i ((d20v : Int) + atk.attack_bonus)),
      ("target_ac", .i defender.ac),
      ("adv_state", .s (if st = .dis then "dis" else "normal"))] }

/-- The "hit" event of `_resolve_attack`. -/
def hitEvent (attacker defender : Combatant) (is_crit : Bool) : Event :=
  { type := "hit", actor := some attacker.id, target := some defender.id,
    message := attacker.name ++ " hits " ++ defender.name
      ++ (if is_crit then " (CRIT)" else "") ++ "!",
    data := [("crit", .b is_crit)] }

/-- The "miss" event of `_resolve_attack`. -/
def missEvent (attacker defender : Combatant) : Event :=
  { type := "miss", actor := some attacker.id, target := some defender.id,
    message := attacker.name ++ " misses " ++ defender.name ++ "." }

/-- The "damage" event of `_resolve_attack`. -/
def damageEvent (attacker defender : Combatant) (atk : AttackProfile)
    (dmg_total : Int) (detail : String) (before after : Int) : Event :=
  { type := "damage", actor := some attacker.id, target := some defender.id,
    message := defender.name ++ " takes " ++ toString dmg_total ++ " "
      ++ atk.damage_type ++ " damage (" ++ detail ++ "). HP "
      ++ toString before ++ " -> " ++ toString after,
    data := [("amount", .i dmg_total), ("damage_type", .s atk.damage_type),
      ("hp_before", .i before), ("hp_after", .i after)] }

/-- The "down" event of `_resolve_attack`. -/
def downEvent (attacker defender : Combatant) : Event :=
  { type := "down", actor := some attacker.id, target := some defender.id,
    message := defender.name ++ " goes down!" }

/-- The body of `_resolve_attack` once attacker, defender and attack profile
have been fetched and all silent no-op guards have passed. -/
def resolve_attack_core (s : CombatState) (attacker defender : Combatant)
    (atk : AttackProfile) (d : Dice) : CombatState × List Event × Dice :=
  let adv_state : AdvState := if "defending" ∈ defender.flags then .dis else .normal
  let (d20v, underlying, d1) := d.d20_with_adv_state adv_state
  let total_to_hit : Int := (d20v : Int) + atk.attack_bonus
  let rollEv := attackRollEvent attacker defender atk adv_state d20v underlying
  let is_crit := d20v == 20
  if is_crit || decide (defender.ac ≤ total_to_hit) then
    let (dmg_total, detail, d2) := roll_damage atk.damage_dice is_crit d1
    let newHp := max 0 (defender.hp - dmg_total)
    let downEvs : List Event :=
      if newHp = 0 then [downEvent attacker defender] else []
    (s.setCombatant { defender with hp := newHp },
      [rollEv, hitEvent attacker defender is_crit,
        damageEvent attacker defender atk dmg_total detail defender.hp newHp] ++ downEvs,
      d2)
  else
    (s, [rollEv, missEvent attacker defender], d1)

/-- `RulesEngine._resolve_attack`: silent no-op (no mutation, no events) when
the attacker is dead, there is no target, or the first target is dead;
otherwise delegate to `resolve_attack_core`. -/
def resolve_attack (s : CombatState) (a : ActionDeclaration) (d : Dice) :
    Option (CombatState × List Event × Dice) :=
  match s.get a.actor_id with
  | none => none
  | some attacker =>
    if attacker.alive then
      match a.target_ids with
      | [] => some (s, [], d)
      | tid :: _ =>
        match s.get tid with
        | none => none
        | some defender =>
          if defender.alive then
            match attacker.choose_attack a.attack_index with
            | none => none
            | some atk => some (resolve_attack_core s attacker defender atk d)
          else some (s, [], d)
    else some (s, [], d)

/-- `RulesEngine.resolve_action`: dispatch on the action kind (the
unsupported-kind `ValueError` branch is unreachable over the closed
`ActionType`). -/
def resolve_action (s : CombatState) (a : ActionDeclaration) (d : Dice) :
    Option (CombatState × List Event × Dice) :=
  match a.type with
  | .attack => resolve_attack s a d
  | .defend => resolve_defend s a d
  | .heal => resolve_heal s a d
  | .wait => resolve_wait s a d

/-- A sequence of actions resolved one after the other (aborting on the fatal
lookup / contract errors, which raise in the source). -/
def resolve_seq (s : CombatState) (d : Dice) :
    List ActionDeclaration → Option (CombatState × Dice)
  | [] => some (s, d)
  | a :: rest =>
    match resolve_action s a d with
    | none => none
    | some (s1, _, d1) => resolve_seq s1 d1 rest

/-! ### engine/systems/actions/registry.py — action legality enumerator -/

/-- The attack declaration built by `ActionRegistry.list_actions` for target `t`. -/
def attackDecl (actor t : Combatant) : ActionDeclaration :=
  { actor_id := actor.id, type := .attack, target_ids := [t.id], attack_index := 0 }

/-- The defend declaration built by `list_actions`. -/
def defendDecl (actor : Combatant) : ActionDeclaration :=
  { actor_id := actor.id, type := .defend }

/-- The heal declaration built by `list_actions` (targets self, carries the
combatant's own heal dice in the data bag). -/
def healDecl (actor : Combatant) : ActionDeclaration :=
  { actor_id := actor.id, type := .heal, target_ids := [actor.id],
    heal_dice_data := some actor.heal_dice }

/-- The wait declaration built by `list_actions`. -/
def waitDecl (actor : Combatant) : ActionDeclaration :=
  { actor_id := actor.id, type := .wait }

/-- `ActionRegistry.list_actions`: the legal actions of `actor` in `state`
(a pure function; the roster loop is the source's `for t in state.combatants`
append loop). -/
def list_actions (s : CombatState) (actor : Combatant) : List ActionDeclaration :=
  if actor.alive then
    let actions := s.combatants.foldl
      (fun acc t => if t.alive ∧ t.team ≠ actor.team then acc ++ [attackDecl actor t] else acc)
      []
    let actions := actions ++ [defendDecl actor]
    let actions := actions ++
      (if 0 < actor.heals_remaining ∧ actor.hp < actor.max_hp then [healDecl actor] else [])
    actions ++ [waitDecl actor]
  else []

/-! ### engine/systems/ai/policies.py — planner controller

`random.Random` as used by the planner is modelled by `PRng`: a stream of
rationals for `random()` (floats modelled as rationals), a stream of naturals
for integer draws, and a shared cursor; each call consumes one position.
`Dice(rng=random.Random(seed))` is modelled by an abstract `mkDice` map from
the drawn child seed to a dice stream. -/

/-- Abstract model of the planner's private `random.Random` source. -/
structure PRng where
  floats : Nat → ℚ
  nats : Nat → Nat
  pos : Nat

/-- `rng.random()`: one sample in `[0, 1)` (value taken from the stream). -/
def PRng.random (r : PRng) : ℚ × PRng :=
  (r.floats r.pos, ⟨r.floats, r.nats, r.pos + 1⟩)

/-- `rng.randrange(n)`: one integer draw, uniform over `0..n-1` (modelled by
reduction mod `n`). -/
def PRng.randrange (r : PRng) (n : Nat) : Nat × PRng :=
  (r.nats r.pos % n, ⟨r.floats, r.nats, r.pos + 1⟩)

/-- `rng.choice(seq)`: a uniformly drawn element (`IndexError` on an empty
sequence becomes `none`). -/
def PRng.choice (r : PRng) (l : List ActionDeclaration) : Option ActionDeclaration × PRng :=
  (l.get? (r.nats r.pos % l.length), ⟨r.floats, r.nats, r.pos + 1⟩)

/-- `_team_hp_sum`: total hp of living members of `team`. -/
def team_hp_sum (s : CombatState) (team : String) : Int :=
  ((s.combatants.filter (fun c => c.alive ∧ c.team = team)).map (fun c => c.hp)).sum

/-- `_enemy_hp_sum`: total hp of living members of other teams. -/
def enemy_hp_sum (s : CombatState) (team : String) : Int :=
  ((s.combatants.filter (fun c => c.alive ∧ c.team ≠ team)).map (fun c => c.hp)).sum

/-- `_evaluate_delta`: team-based score of a simulated outcome (float
arithmetic modelled over `ℚ`; the `1.2` ally-damage weight is `6/5`). -/
def evaluate_delta (before after : CombatState) (team : String) : ℚ :=
  let enemy_damage : Int := enemy_hp_sum before team - enemy_hp_sum after team
  let ally_damage : Int := team_hp_sum before team - team_hp_sum after team
  let score : ℚ := (enemy_damage : ℚ) * 1 - (ally_damage : ℚ) * (6 / 5)
  let before_teams := before.alive_teams
  let after_teams := after.alive_teams
  let score := if team ∈ after_teams ∧ after_teams.length = 1 then score + 10000 else score
  if team ∉ after_teams ∧ team ∈ before_teams then score - 10000 else score

/-- `PlannerConfig` (the optional seed is represented by the `PRng` stream the
controller is given). -/
structure PlannerConfig where
  rollouts : Int := 50
  epsilon : ℚ := 1 / 20

/-- `PlannerController._simulate_once`: draw a child seed, resolve the single
action on a fresh copy of the state with dice built from that seed. -/
def simulate_once (mkDice : Nat → Dice) (s : CombatState) (a : ActionDeclaration)
    (rng : PRng) : Option CombatState × PRng :=
  let (seed, rng1) := rng.randrange 1000000000
  match resolve_action s a (mkDice seed) with
  | none => (none, rng1)
  | some (s1, _, _) => (some s1, rng1)

/-- The rollout accumulation loop of `_score_action`. -/
def score_rollouts (mkDice : Nat → Dice) (s : CombatState) (team : String)
    (a : ActionDeclaration) : Nat → ℚ → PRng → Option (ℚ × PRng)
  | 0, total, rng => some (total, rng)
  | n + 1, total, rng =>
    match simulate_once mkDice s a rng with
    | (none, _) => none
    | (some after, rng1) =>
      score_rollouts mkDice s team a n (total + evaluate_delta s after team) rng1

/-- `PlannerController._score_action`: a single forward sample when
`rollouts ≤ 0`, otherwise the average score over `rollouts` simulations. -/
def score_action (cfg : PlannerConfig) (mkDice : Nat → Dice) (s : CombatState)
    (team : String) (a : ActionDeclaration) (rng : PRng) : Option (ℚ × PRng) :=
  if cfg.rollouts ≤ 0 then
    match simulate_once mkDice s a rng with
    | (none, _) => none
    | (some after, rng1) => some (evaluate_delta s after team, rng1)
  else
    match score_rollouts mkDice s team a cfg.rollouts.toNat 0 rng with
    | none => none
    | some (total, rng1) => some (total / (cfg.rollouts : ℚ), rng1)

/-- `score > best_score` with `best_score` initialized to `float("-inf")`
(`none` plays the role of minus infinity). -/
def scoreBeats (sc : ℚ) : Option ℚ → Bool
  | none => true
  | some b => decide (b < sc)

/-- The candidate loop of `choose_action`: keep the strictly best-scoring
action (ties keep the earlier candidate). -/
def plan_loop (cfg : PlannerConfig) (mkDice : Nat → Dice) (s : CombatState)
    (team : String) : List ActionDeclaration → ActionDeclaration → Option ℚ → PRng →
    Option (ActionDeclaration × PRng)
  | [], best, _, rng => some (best, rng)
  | a :: rest, best, bestScore, rng =>
    match score_action cfg mkDice s team a rng with
    | none => none
    | some (sc, rng1) =>
      if scoreBeats sc bestScore then plan_loop cfg mkDice s team rest a (some sc) rng1
      else plan_loop cfg mkDice s team rest best bestScore rng1

/-- The `epsilon > 0 and rng.random() < epsilon` exploration gate of
`choose_action` — note the short-circuit: the sample is drawn only when
`epsilon > 0`. -/
def exploration_stage (cfg : PlannerConfig) (rng : PRng) : Bool × PRng :=
  if 0 < cfg.epsilon then
    let (x, rng1) := rng.random
    (decide (x < cfg.epsilon), rng1)
  else (false, rng)

/-- `PlannerController.choose_action`: wait when no action is legal; explore
with probability ε; otherwise pick the first candidate with the strictly
highest score. The final `PRng` is returned to make randomness consumption
observable. -/
def choose_action (cfg : PlannerConfig) (mkDice : Nat → Dice) (s : CombatState)
    (actor_id : String) (rng : PRng) : Option (ActionDeclaration × PRng) :=
  match s.get actor_id with
  | none => none
  | some actor =>
    match list_actions s actor with
    | [] => some ({ actor_id := actor.id, type := .wait }, rng)
    | a0 :: rest =>
      let (explore, rng1) := exploration_stage cfg rng
      if explore then
        match rng1.choice (a0 :: rest) with
        | (some a, rng2) => some (a, rng2)
        | (none, _) => none
      else
        plan_loop cfg mkDice s actor.team (a0 :: rest) a0 none rng1

/-- The per-candidate scores of the exploit path, in candidate order, with the
same sequential rng threading as the candidate loop. -/
def score_list (cfg : PlannerConfig) (mkDice : Nat → Dice) (s : CombatState)
    (team : String) : List ActionDeclaration → PRng → Option (List ℚ × PRng)
  | [], rng => some ([], rng)
  | a :: rest, rng =>
    match score_action cfg mkDice s team a rng with
    | none => none
    | some (sc, rng1) =>
      match score_list cfg mkDice s team rest rng1 with
      | none => none
      | some (qs, rng2) => some (sc :: qs, rng2)

/-- The rng-free selection kernel of the candidate loop: fold over scored
candidates keeping the strictly best. -/
def bestFrom (best : ActionDeclaration) (bs : Option ℚ) :
    List (ActionDeclaration × ℚ) → ActionDeclaration
  | [] => best
  | (a, sc) :: t => if scoreBeats sc bs then bestFrom a (some sc) t else bestFrom best bs t

/-! ### Session loop (claim C3)

The controller-dispatching `CombatSession.run` is not under `src/`:
`src/engine/session.py` is a pre-controllers version of the loop (hard-wired
prompt/goblin policies, no `controllers` parameter), while both of its
callers — `IcosEngine.run_combat` in `src/engine/core.py` and `src/run.py` —
invoke `session.run(combatants, controllers=..., ...)`.  The turn body that
dispatches on a registered-controller mapping is therefore modelled from the
spec (§4.4). -/

/-- The controller capability (`CombatController.choose_action` protocol). -/
def Controller := CombatState → String → ActionDeclaration

/-- Modelled from the spec: the session loop's action source — "obtain an
`ActionDeclaration` from the controller registered for that combatant id
(a combatant with no registered controller defaults to wait)".  The
registered-controller dispatch is missing from `src/` (see section header). -/
def controllerAction (controllers : List (String × Controller)) (s : CombatState)
    (cid : String) : ActionDeclaration :=
  match controllers.lookup cid with
  | some ctrl => ctrl s cid
  | none => { actor_id := cid, type := .wait }

/-- The turn-start event emitted at the head of each living combatant's turn. -/
def turnStartEvent (round : Int) (cid name : String) : Event :=
  { type := "turn_start", actor := some cid,
    message := "--- Round " ++ toString round ++ ", " ++ name ++ " turn ---",
    data := [("round", .i round)] }

/-- Modelled from the spec: one iteration of the `CombatSession.run` turn loop
(missing from `src/`, see section header): skip-and-advance for a dead
combatant; otherwise clear the "defending" flag, emit a turn-start event,
resolve the action obtained from `controllerAction`, advance the turn. -/
def sessionTurn (controllers : List (String × Controller)) (s : CombatState)
    (d : Dice) : Option (CombatState × List Event × Dice) :=
  match s.current_turn_id with
  | none => none
  | some cid =>
    match s.get cid with
    | none => none
    | some actor =>
      if actor.alive then
        let s1 := s.setCombatant (actor.discardFlag "defending")
        let turnEv := turnStartEvent s.round_num cid actor.name
        match resolve_action s1 (controllerAction controllers s1 cid) d with
        | none => none
        | some (s2, evs, d1) =>
          match s2.advance_turn with
          | none => none
          | some s3 => some (s3, turnEv :: evs, d1)
      else
        match s.advance_turn with
        | none => none
        | some s1 => some (s1, [], d)

/-- Modelled from the spec: the `CombatSession.run` while-loop (missing from
`src/`, see section header), with fuel for termination. -/
def sessionLoop (controllers : List (String × Controller)) (max_rounds : Int) :
    Nat → CombatState → Dice → Option (CombatState × List Event × Dice)
  | 0, s, d => some (s, [], d)
  | fuel + 1, s, d =>
    if s.is_over ∨ max_rounds < s.round_num then some (s, [], d)
    else
      match sessionTurn controllers s d with
      | none => none
      | some (s1, evs, d1) =>
        match sessionLoop controllers max_rounds fuel s1 d1 with
        | none => none
        | some (s2, evs2, d2) => some (s2, evs ++ evs2, d2)

/-! ### Invariants (claim C4) -/

/-- The hp invariant of §8: every combatant has `0 ≤ hp ≤ max_hp`. -/
def hpInv (s : CombatState) : Prop :=
  ∀ c ∈ s.combatants, 0 ≤ c.hp ∧ c.hp ≤ c.max_hp

/-- All damage and heal dice expressions reachable from the roster have a
nonnegative flat modifier. -/
def diceNonNeg (s : CombatState) : Prop :=
  ∀ c ∈ s.combatants,
    (∀ atk ∈ c.attacks, 0 ≤ atk.damage_dice.modifier) ∧ 0 ≤ c.heal_dice.modifier

/-- The action's heal-dice override, if any, has a nonnegative flat modifier. -/
def actionDiceNonNeg (a : ActionDeclaration) : Prop :=
  ∀ e, a.heal_dice_data = some e → 0 ≤ e.modifier

/-! ## Theorems -/

/-- An append-if fold over a list (the registry's roster loop) equals
filtering then mapping. -/
theorem foldl_append_filter_map {α β : Type} (p : α → Prop) [DecidablePred p] (f : α → β) :
    ∀ (l : List α) (acc : List β),
      l.foldl (fun acc t => if p t then acc ++ [f t] else acc) acc
        = acc ++ (l.filter fun t => decide (p t)).map f
  | [], acc => by simp
  | x :: l, acc => by
    by_cases h : p x <;>
      simp [List.foldl_cons, h, foldl_append_filter_map p f l, List.filter_cons]

/-- C7: for a dead actor the enumerator returns the empty list; for a living
actor it returns exactly one attack declaration per living different-team
combatant in roster order (attack index 0), then one defend declaration, then
one heal declaration iff the actor has charges left and is below max hp, then
one wait declaration.  (`list_actions` is a pure function of the state, so it
has no side effects by construction.) -/
theorem list_actions_spec (s : CombatState) (actor : Combatant) :
    list_actions s actor =
      if actor.alive then
        ((s.combatants.filter fun t => decide (t.alive ∧ t.team ≠ actor.team)).map
            fun t => attackDecl actor t)
          ++ [defendDecl actor]
          ++ (if 0 < actor.heals_remaining ∧ actor.hp < actor.max_hp
              then [healDecl actor] else [])
          ++ [waitDecl actor]
      else [] := by
  by_cases h : actor.alive <;>
    simp [list_actions, h,
      foldl_append_filter_map (fun t => t.alive ∧ t.team ≠ actor.team)
        (fun t => attackDecl actor t) s.combatants []]

/-- C10: construction rejects non-positive `max_hp` (first) and non-positive
`ac` (second), while an out-of-range initial `hp` is silently coerced —
negative `hp` becomes 0, `hp` above `max_hp` becomes `max_hp`, in-range `hp`
is kept — so every constructed combatant satisfies `0 ≤ hp ≤ max_hp`. -/
theorem combatant_construction_spec (id name team : String) (ac max_hp hp dex : Int)
    (attacks : List AttackProfile) (heals : Int) (hd : DiceExpr) :
    (max_hp ≤ 0 → mkCombatant id name team ac max_hp hp dex attacks heals hd
        = .error "max_hp must be > 0") ∧
    (0 < max_hp → ac ≤ 0 → mkCombatant id name team ac max_hp hp dex attacks heals hd
        = .error "ac must be > 0") ∧
    (0 < max_hp → 0 < ac →
      ∃ c, mkCombatant id name team ac max_hp hp dex attacks heals hd = .ok c ∧
        c.hp = min (max hp 0) max_hp ∧ c.max_hp = max_hp ∧
        0 ≤ c.hp ∧ c.hp ≤ c.max_hp ∧
        (hp < 0 → c.hp = 0) ∧ (max_hp < hp → c.hp = max_hp) ∧
        (0 ≤ hp → hp ≤ max_hp → c.hp = hp)) := by
  refine ⟨fun h => by simp [mkCombatant, h], fun h1 h2 => ?_, fun h1 h2 => ?_⟩
  · simp [mkCombatant, not_le.mpr h1, h2]
  · refine ⟨⟨id, name, team, ac, max_hp,
        (if max_hp < (if hp < 0 then 0 else hp) then max_hp else (if hp < 0 then 0 else hp)),
        dex, attacks, [], heals, hd⟩,
      by simp [mkCombatant, not_le.mpr h1, not_le.mpr h2], ?_, rfl, ?_, ?_, ?_, ?_, ?_⟩
    all_goals intros
    all_goals dsimp only
    all_goals (try simp only [min_def, max_def])
    all_goals split_ifs <;> omega

/-- Witness for C10 at a concrete input (`max_hp = 10`, `ac = 5`, initial
`hp = 15` coerced down to 10). -/
theorem combatant_construction_spec_witness :
    ∃ c, mkCombatant "x" "X" "t" 5 10 15 12 [] 0 ⟨1, 8, 2⟩ = .ok c ∧
      c.hp = min (max 15 0) 10 ∧ c.max_hp = 10 ∧ 0 ≤ c.hp ∧ c.hp ≤ c.max_hp ∧
      ((15 : Int) < 0 → c.hp = 0) ∧ ((10 : Int) < 15 → c.hp = 10) ∧
      ((0 : Int) ≤ 15 → (15 : Int) ≤ 10 → c.hp = 15) := by
  exact (combatant_construction_spec "x" "X" "t" 5 10 15 12 [] 0 ⟨1, 8, 2⟩).2.2
    (by norm_num) (by norm_num)

/-- C1: a heal action on a living actor with zero charges yields one
informational event and leaves the state (hp and charge count) unchanged;
with charges remaining it raises hp by the rolled total of the
override-or-default heal dice capped at `max_hp` and decrements the charge
counter by exactly one. -/
theorem heal_resolution_spec (s : CombatState) (a : ActionDeclaration) (d : Dice)
    (actor : Combatant) (ht : a.type = .heal) (hg : s.get a.actor_id = some actor)
    (hal : actor.alive) :
    (actor.heals_remaining = 0 →
      resolve_action s a d = some (s, [healNoChargesEvent actor], d)) ∧
    (0 < actor.heals_remaining →
      ∃ ev : Event,
        resolve_action s a d
          = some
              (s.setCombatant
                { actor with
                  hp := min actor.max_hp
                    (actor.hp
                      + (d.roll_expr (a.heal_dice_data.getD actor.heal_dice)).1.total),
                  heals_remaining := actor.heals_remaining - 1 },
               [ev],
               (d.roll_expr (a.heal_dice_data.getD actor.heal_dice)).2) ∧
        ev.type = "damage") := by
  have hdisp : resolve_action s a d = resolve_heal s a d := by
    simp [resolve_action, ht]
  constructor
  · intro h0
    rw [hdisp]
    simp [resolve_heal, hg, hal, h0]
  · intro hpos
    rw [hdisp]
    rcases hre : d.roll_expr (a.heal_dice_data.getD actor.heal_dice) with ⟨roll, d1⟩
    simp only [resolve_heal, hg, if_pos hal, if_neg (not_le.mpr hpos), hre]
    exact ⟨_, rfl, rfl⟩

/-- C8: an attack whose (existing) actor is dead, whose target list is empty,
or whose first target exists but is dead, resolves to the unchanged state and
an empty event list — a silent pass-through, not an error. -/
theorem attack_noop_spec (s : CombatState) (a : ActionDeclaration) (d : Dice)
    (attacker : Combatant) (ht : a.type = .attack) (hg : s.get a.actor_id = some attacker)
    (h : ¬ attacker.alive ∨ a.target_ids = [] ∨
      ∃ tid rest defender, a.target_ids = tid :: rest ∧ s.get tid = some defender
        ∧ ¬ defender.alive) :
    resolve_action s a d = some (s, [], d) := by
  have hdisp : resolve_action s a d = resolve_attack s a d := by
    simp [resolve_action, ht]
  rw [hdisp]
  rcases h with hdead | hnil | ⟨tid, rest, defender, hts, hgd, hddead⟩
  · simp [resolve_attack, hg, hdead]
  · by_cases hal : attacker.alive <;> simp [resolve_attack, hg, hal, hnil]
  · by_cases hal : attacker.alive <;> simp [resolve_attack, hg, hal, hts, hgd, hddead]

/-- Witness for C1 at a concrete input: a living actor with hp 5/10 and 2
charges heals (stream gives a die of 1, so 1d8+2 totals 3) to hp 8 with 1
charge left. -/
theorem heal_resolution_spec_witness :
    ∃ ev : Event,
      resolve_action ⟨[⟨"a", "A", "t", 10, 10, 5, 10, [], [], 2, ⟨1, 8, 2⟩⟩], 1, 0, []⟩
          ⟨"a", .heal, ["a"], 0, none⟩ ⟨fun _ => 0, 0⟩
        = some
            ((⟨[⟨"a", "A", "t", 10, 10, 5, 10, [], [], 2, ⟨1, 8, 2⟩⟩], 1, 0, []⟩ :
                CombatState).setCombatant
              { (⟨"a", "A", "t", 10, 10, 5, 10, [], [], 2, ⟨1, 8, 2⟩⟩ : Combatant) with
                hp := min (10 : Int) (5
                  + ((⟨fun _ => 0, 0⟩ : Dice).roll_expr
                      (((none : Option DiceExpr)).getD ⟨1, 8, 2⟩)).1.total),
                heals_remaining := 2 - 1 },
             [ev],
             ((⟨fun _ => 0, 0⟩ : Dice).roll_expr
               (((none : Option DiceExpr)).getD ⟨1, 8, 2⟩)).2) ∧
      ev.type = "damage" := by
  exact (heal_resolution_spec _ _ _ ⟨"a", "A", "t", 10, 10, 5, 10, [], [], 2, ⟨1, 8, 2⟩⟩
    rfl (by decide) (by decide)).2 (by decide)

/-- Witness for C8 at a concrete input: a dead actor's attack resolves to the
unchanged state and no events. -/
theorem attack_noop_spec_witness :
    resolve_action ⟨[⟨"a", "A", "t", 10, 10, 0, 10, [], [], 0, ⟨1, 8, 2⟩⟩], 1, 0, []⟩
        ⟨"a", .attack, [], 0, none⟩ ⟨fun _ => 0, 0⟩
      = some (⟨[⟨"a", "A", "t", 10, 10, 0, 10, [], [], 0, ⟨1, 8, 2⟩⟩], 1, 0, []⟩, [],
          ⟨fun _ => 0, 0⟩) := by
  exact attack_noop_spec _ _ _ ⟨"a", "A", "t", 10, 10, 0, 10, [], [], 0, ⟨1, 8, 2⟩⟩
    rfl (by decide) (Or.inl (by decide))

/-- The initiative sort key order is total. -/
theorem initKeyGe_total (a b : InitRoll) : initKeyGe a b ∨ initKeyGe b a := by
  unfold initKeyGe
  rcases lt_trichotomy a.1 b.1 with h | h | h
  · exact Or.inr (Or.inl h)
  · rcases lt_trichotomy a.2.1 b.2.1 with h2 | h2 | h2
    · exact Or.inr (Or.inr ⟨h.symm, Or.inl h2⟩)
    · rcases le_total b.2.2.2 a.2.2.2 with h3 | h3
      · exact Or.inl (Or.inr ⟨h, Or.inr ⟨h2, h3⟩⟩)
      · exact Or.inr (Or.inr ⟨h.symm, Or.inr ⟨h2.symm, h3⟩⟩)
    · exact Or.inl (Or.inr ⟨h, Or.inl h2⟩)
  · exact Or.inl (Or.inl h)

/-- The initiative sort key order is transitive. -/
theorem initKeyGe_trans (a b c : InitRoll) (hab : initKeyGe a b) (hbc : initKeyGe b c) :
    initKeyGe a c := by
  unfold initKeyGe at *
  rcases hab with h1 | ⟨e1, h1⟩
  · rcases hbc with h2 | ⟨e2, h2⟩
    · exact Or.inl (h2.trans h1)
    · exact Or.inl (e2 ▸ h1)
  · rcases hbc with h2 | ⟨e2, h2⟩
    · exact Or.inl (e1 ▸ h2)
    · refine Or.inr ⟨e1.trans e2, ?_⟩
      rcases h1 with h1 | ⟨f1, hn1⟩
      · rcases h2 with h2 | ⟨f2, hn2⟩
        · exact Or.inl (h2.trans h1)
        · exact Or.inl (f2 ▸ h1)
      · rcases h2 with h2 | ⟨f2, hn2⟩
        · exact Or.inl (f1 ▸ h2)
        · exact Or.inr ⟨f1.trans f2, hn2.trans hn1⟩

/-- Membership in a stable insert. -/
theorem mem_insDesc (x : InitRoll) (l : List InitRoll) (a : InitRoll) :
    a ∈ insDesc x l ↔ a = x ∨ a ∈ l := by
  induction l with
  | nil => simp [insDesc]
  | cons y t ih =>
    by_cases h : initKeyGe y x
    · simp only [insDesc, if_pos h, List.mem_cons, ih]
      tauto
    · simp only [insDesc, if_neg h, List.mem_cons]

/-- Stable insert preserves descending sortedness. -/
theorem insDesc_pairwise (x : InitRoll) (l : List InitRoll)
    (h : l.Pairwise initKeyGe) : (insDesc x l).Pairwise initKeyGe := by
  induction l with
  | nil => simp [insDesc]
  | cons y t ih =>
    rcases List.pairwise_cons.mp h with ⟨hy, ht⟩
    by_cases hge : initKeyGe y x
    · simp only [insDesc, if_pos hge]
      refine List.pairwise_cons.mpr ⟨?_, ih ht⟩
      intro b hb
      rcases (mem_insDesc x t b).mp hb with rfl | hbt
      · exact hge
      · exact hy b hbt
    · simp only [insDesc, if_neg hge]
      have hxy : initKeyGe x y := (initKeyGe_total x y).resolve_right hge
      refine List.pairwise_cons.mpr ⟨?_, h⟩
      intro b hb
      rcases List.mem_cons.mp hb with rfl | hbt
      · exact hxy
      · exact initKeyGe_trans x y b hxy (hy b hbt)

/-- Auxiliary fold invariant for `sortDesc` sortedness. -/
theorem sortDesc_pairwise_aux (l : List InitRoll) :
    ∀ acc : List InitRoll, acc.Pairwise initKeyGe →
      (l.foldl (fun acc x => insDesc x acc) acc).Pairwise initKeyGe := by
  induction l with
  | nil => intro acc h; simpa using h
  | cons x t ih => intro acc h; exact ih _ (insDesc_pairwise x acc h)

/-- The initiative sort output is descending w.r.t. the key order. -/
theorem sortDesc_pairwise (l : List InitRoll) : (sortDesc l).Pairwise initKeyGe :=
  sortDesc_pairwise_aux l [] (by simp)

/-- Stable insert is a permutation of cons. -/
theorem insDesc_perm (x : InitRoll) (l : List InitRoll) :
    List.Perm (insDesc x l) (x :: l) := by
  induction l with
  | nil => simp [insDesc]
  | cons y t ih =>
    by_cases h : initKeyGe y x
    · simp only [insDesc, if_pos h]
      exact (ih.cons y).trans (List.Perm.swap x y t)
    · simp [insDesc, if_neg h]

/-- Auxiliary fold invariant for `sortDesc` permutation. -/
theorem sortDesc_perm_aux (l : List InitRoll) :
    ∀ acc : List InitRoll,
      List.Perm (l.foldl (fun acc x => insDesc x acc) acc) (l ++ acc) := by
  induction l with
  | nil => intro acc; simp
  | cons x t ih =>
    intro acc
    simp only [List.foldl_cons]
    refine (ih (insDesc x acc)).trans ?_
    refine (List.Perm.append_left t (insDesc_perm x acc)).trans ?_
    exact List.perm_middle

/-- The initiative sort permutes its input. -/
theorem sortDesc_perm (l : List InitRoll) : List.Perm (sortDesc l) l := by
  simpa [sortDesc] using sortDesc_perm_aux l []

/-- The pre-sort roll records carry exactly the roster ids, in roster order. -/
theorem initRolls_ids (d : Dice) (cs : List Combatant) :
    (initRolls d cs).1.map (fun r => r.2.2.1) = cs.map (fun c => c.id) := by
  induction cs generalizing d with
  | nil => simp [initRolls]
  | cons c t ih =>
    simp only [initRolls, Dice.d20, Dice.roll_die]
    rcases hrec : initRolls ⟨d.stream, d.pos + 1⟩ t with ⟨rs, evs, d2⟩
    have := ih ⟨d.stream, d.pos + 1⟩
    rw [hrec] at this
    simpa using this

/-- Every pre-sort roll record is `(d20 + dex_mod, dex_mod, id, name)` of some
roster member, with the d20 in `1..20`. -/
theorem initRolls_shape (d : Dice) (cs : List Combatant) :
    ∀ r ∈ (initRolls d cs).1, ∃ c ∈ cs, ∃ k : Nat, 1 ≤ k ∧ k ≤ 20 ∧
      r = ((k : Int) + c.dex_mod, c.dex_mod, c.id, c.name) := by
  induction cs generalizing d with
  | nil => simp [initRolls]
  | cons c t ih =>
    intro r hr
    simp only [initRolls, Dice.d20, Dice.roll_die] at hr
    rcases hrec : initRolls ⟨d.stream, d.pos + 1⟩ t with ⟨rs, evs, d2⟩
    rw [hrec] at hr
    simp only [List.mem_cons] at hr
    rcases hr with rfl | hr
    · refine ⟨c, List.mem_cons_self c t, d.stream d.pos % 20 + 1, by omega, ?_, rfl⟩
      have := Nat.mod_lt (d.stream d.pos) (show 0 < 20 by norm_num)
      omega
    · obtain ⟨c1, hc1, k, h1, h2, h3⟩ := by
        have := ih ⟨d.stream, d.pos + 1⟩
        rw [hrec] at this
        exact this r hr
      exact ⟨c1, List.mem_cons_of_mem c hc1, k, h1, h2, h3⟩

/-- C2: the initiative order is the roster sorted descending by the key
`(d20 + dex_mod, dex_mod, name)` — so equal totals are ordered by the ability
modifier, then by name — it is a permutation of the roster ids, every key is
built from a d20 roll in `1..20` plus the ability modifier, and the whole
computation is reproduced exactly by any dice source with the same stream and
position (same seed). -/
theorem initiative_order_spec (d : Dice) (cs : List Combatant) :
    (sortDesc (initRolls d cs).1).Pairwise initKeyGe ∧
    (roll_initiative d cs).1 = (sortDesc (initRolls d cs).1).map (fun r => r.2.2.1) ∧
    List.Perm (roll_initiative d cs).1 (cs.map fun c => c.id) ∧
    (∀ r ∈ (initRolls d cs).1, ∃ c ∈ cs, ∃ k : Nat, 1 ≤ k ∧ k ≤ 20 ∧
      r = ((k : Int) + c.dex_mod, c.dex_mod, c.id, c.name)) ∧
    (∀ d2 : Dice, d2.stream = d.stream → d2.pos = d.pos →
      roll_initiative d2 cs = roll_initiative d cs) := by
  have hfst : (roll_initiative d cs).1 = (sortDesc (initRolls d cs).1).map (fun r => r.2.2.1) := by
    rcases h : initRolls d cs with ⟨rolls, evs, d1⟩
    simp [roll_initiative, h]
  refine ⟨sortDesc_pairwise _, hfst, ?_, initRolls_shape d cs, ?_⟩
  · rw [hfst, ← initRolls_ids d cs]
    exact (sortDesc_perm _).map _
  · intro d2 h1 h2
    cases d
    cases d2
    simp_all

/-- Witness for C2 at a concrete input (two combatants with tied totals,
constant dice stream): the theorem's determinism conjunct applied with its
hypotheses discharged, plus the instantiated permutation conjunct. -/
theorem initiative_order_spec_witness :
    roll_initiative ⟨fun _ => 0, 0⟩
        [⟨"a", "A", "t1", 10, 10, 5, 10, [], [], 0, ⟨1, 8, 2⟩⟩,
         ⟨"b", "B", "t2", 10, 10, 5, 10, [], [], 0, ⟨1, 8, 2⟩⟩]
      = roll_initiative ⟨fun _ => 0, 0⟩
        [⟨"a", "A", "t1", 10, 10, 5, 10, [], [], 0, ⟨1, 8, 2⟩⟩,
         ⟨"b", "B", "t2", 10, 10, 5, 10, [], [], 0, ⟨1, 8, 2⟩⟩] ∧
    List.Perm
      (roll_initiative ⟨fun _ => 0, 0⟩
        [⟨"a", "A", "t1", 10, 10, 5, 10, [], [], 0, ⟨1, 8, 2⟩⟩,
         ⟨"b", "B", "t2", 10, 10, 5, 10, [], [], 0, ⟨1, 8, 2⟩⟩]).1
      ["a", "b"] :=
  ⟨(initiative_order_spec _ _).2.2.2.2 ⟨fun _ => 0, 0⟩ rfl rfl,
   (initiative_order_spec _ _).2.2.1⟩

/-- Rolling `n` dice leaves the stream unchanged and advances the cursor by
exactly `n`. -/
theorem rollN_snd (n : Nat) : ∀ (d : Dice) (sides : Nat),
    (d.rollN n sides).2.stream = d.stream ∧ (d.rollN n sides).2.pos = d.pos + n := by
  induction n with
  | zero => intro d sides; simp [Dice.rollN]
  | succ n ih =>
    intro d sides
    have h2 := ih ⟨d.stream, d.pos + 1⟩ sides
    refine ⟨?_, ?_⟩
    · show (Dice.rollN ⟨d.stream, d.pos + 1⟩ n sides).2.stream = d.stream
      exact h2.1
    · show (Dice.rollN ⟨d.stream, d.pos + 1⟩ n sides).2.pos = d.pos + (n + 1)
      rw [h2.2]
      show d.pos + 1 + n = d.pos + (n + 1)
      omega

/-- `roll_expr` unpacked: total is roll sum plus modifier, and the dice state
returned is that of the underlying `rollN`. -/
theorem roll_expr_def (d : Dice) (e : DiceExpr) :
    (d.roll_expr e).1.total = ((d.roll_expr e).1.rolls.sum : Int) + e.modifier ∧
    (d.roll_expr e).1.rolls = (d.rollN e.num_dice e.sides).1 ∧
    (d.roll_expr e).2 = (d.rollN e.num_dice e.sides).2 := by
  rcases h : d.rollN e.num_dice e.sides with ⟨rolls, d1⟩
  simp [Dice.roll_expr, h]

/-- C6: a critical hit rolls the full damage expression twice, independently
and in sequence (the dice cursor advances by `2 * num_dice`), and sums the two
totals, so the flat modifier is counted twice; a non-critical hit rolls the
expression once.  On a chosen natural 20, `resolve_attack_core` applies
exactly this double roll to the defender's hit points. -/
theorem crit_damage_spec (e : DiceExpr) (d : Dice) :
    (roll_damage e true d).1
        = ((d.roll_expr e).1.rolls.sum : Int)
          + (((d.roll_expr e).2.roll_expr e).1.rolls.sum : Int) + 2 * e.modifier ∧
    (roll_damage e true d).2.2 = ((d.roll_expr e).2.roll_expr e).2 ∧
    ((roll_damage e true d).2.2).stream = d.stream ∧
    ((roll_damage e true d).2.2).pos = d.pos + 2 * e.num_dice ∧
    (roll_damage e false d).1 = ((d.roll_expr e).1.rolls.sum : Int) + e.modifier ∧
    (roll_damage e false d).2.2 = (d.roll_expr e).2 ∧
    (∀ (s : CombatState) (attacker defender : Combatant) (atk : AttackProfile)
        (d0 : Dice) (und : List Nat) (d1 : Dice),
      atk.damage_dice = e →
      d0.d20_with_adv_state
          (if "defending" ∈ defender.flags then AdvState.dis else AdvState.normal)
        = (20, und, d1) →
      (resolve_attack_core s attacker defender atk d0).1
        = s.setCombatant
            { defender with hp := max 0 (defender.hp - (roll_damage e true d1).1) }) := by
  obtain ⟨ht1, hr1, hd1⟩ := roll_expr_def d e
  obtain ⟨ht2, hr2, hd2⟩ := roll_expr_def (d.roll_expr e).2 e
  rcases h1 : d.roll_expr e with ⟨r1, dA⟩
  rcases h2 : dA.roll_expr e with ⟨r2, dB⟩
  rw [h1] at ht1 hr1 hd1 ht2 hr2 hd2
  rw [h2] at ht2 hr2 hd2
  simp only at ht1 hr1 hd1 ht2 hr2 hd2
  refine ⟨?_, ?_, ?_, ?_, ?_, ?_, ?_⟩
  · simp only [roll_damage, if_pos trivial, h1, h2]
    omega
  · simp only [roll_damage, if_pos trivial, h1, h2]
  · simp only [roll_damage, if_pos trivial, h1, h2]
    have s1 := (rollN_snd e.num_dice d e.sides).1
    have s2 := (rollN_snd e.num_dice dA e.sides).1
    rw [hd2, s2, hd1, s1]
  · simp only [roll_damage, if_pos trivial, h1, h2]
    have p1 := (rollN_snd e.num_dice d e.sides).2
    have p2 := (rollN_snd e.num_dice dA e.sides).2
    rw [hd2, p2, hd1, p1]
    omega
  · have hfd : roll_damage e false d
        = (r1.total, e.render ++ " => " ++ toString r1.total, dA) := by
      simp only [roll_damage, h1, Bool.false_eq_true, if_false]
    rw [hfd]
    dsimp only
    exact ht1
  · have hfd : roll_damage e false d
        = (r1.total, e.render ++ " => " ++ toString r1.total, dA) := by
      simp only [roll_damage, h1, Bool.false_eq_true, if_false]
    rw [hfd]
  · intro s attacker defender atk d0 und d1 hde hroll2
    simp only [resolve_attack_core, hroll2]
    rcases hrd : roll_damage atk.damage_dice (20 == 20) d1 with ⟨dmg, det, d2⟩
    simp only [hrd]
    have : roll_damage atk.damage_dice (20 == 20) d1 = roll_damage e true d1 := by
      rw [hde]; rfl
    rw [this] at hrd
    simp [hrd]

/-- Witness for C6's attack conjunct at a concrete input: constant stream 19
gives a chosen d20 of 20, so the defender's hp takes the doubled damage roll. -/
theorem crit_damage_spec_witness :
    (resolve_attack_core
        ⟨[⟨"b", "B", "t2", 5, 10, 10, 10, [], [], 0, ⟨1, 8, 2⟩⟩], 1, 0, []⟩
        ⟨"a", "A", "t1", 10, 10, 10, 10, [⟨"Sword", 3, ⟨1, 4, 1⟩, "slashing"⟩], [], 0,
          ⟨1, 8, 2⟩⟩
        ⟨"b", "B", "t2", 5, 10, 10, 10, [], [], 0, ⟨1, 8, 2⟩⟩
        ⟨"Sword", 3, ⟨1, 4, 1⟩, "slashing"⟩
        ⟨fun _ => 19, 0⟩).1
      = (⟨[⟨"b", "B", "t2", 5, 10, 10, 10, [], [], 0, ⟨1, 8, 2⟩⟩], 1, 0, []⟩ :
            CombatState).setCombatant
          { (⟨"b", "B", "t2", 5, 10, 10, 10, [], [], 0, ⟨1, 8, 2⟩⟩ : Combatant) with
            hp := max 0 (10 - (roll_damage ⟨1, 4, 1⟩ true ⟨fun _ => 19, 1⟩).1) } := by
  exact (crit_damage_spec ⟨1, 4, 1⟩ ⟨fun _ => 19, 0⟩).2.2.2.2.2.2 _ _ _ _
    ⟨fun _ => 19, 0⟩ [20] ⟨fun _ => 19, 1⟩ rfl rfl

/-- C5: with attacker, target and attack profile all present and alive, a
chosen d20 roll of exactly 20 yields a hit flagged critical whatever the
bonus and armor class (and no miss event), while a chosen roll below 20 whose
to-hit total is strictly below the target's armor class yields exactly an
attack-roll event followed by a miss event, with the state unchanged. -/
theorem natural20_hit_low_miss_spec (s : CombatState) (a : ActionDeclaration) (d : Dice)
    (attacker defender : Combatant) (atk : AttackProfile) (tid : String)
    (rest : List String) (d20v : Nat) (und : List Nat) (d1 : Dice)
    (ht : a.type = .attack) (hg : s.get a.actor_id = some attacker)
    (hal : attacker.alive) (hts : a.target_ids = tid :: rest)
    (hgd : s.get tid = some defender) (hdal : defender.alive)
    (hatk : attacker.choose_attack a.attack_index = some atk)
    (hroll : d.d20_with_adv_state
        (if "defending" ∈ defender.flags then AdvState.dis else AdvState.normal)
      = (d20v, und, d1)) :
    (d20v = 20 →
      ∃ s1 evs d2, resolve_action s a d = some (s1, evs, d2) ∧
        hitEvent attacker defender true ∈ evs ∧
        ("crit", EData.b true) ∈ (hitEvent attacker defender true).data ∧
        ∀ e ∈ evs, e.type ≠ "miss") ∧
    (d20v ≠ 20 → (d20v : Int) + atk.attack_bonus < defender.ac →
      resolve_action s a d
        = some (s,
            [attackRollEvent attacker defender atk
              (if "defending" ∈ defender.flags then AdvState.dis else AdvState.normal)
              d20v und,
             missEvent attacker defender], d1)) := by
  have hdisp : resolve_action s a d
      = some (resolve_attack_core s attacker defender atk d) := by
    simp [resolve_action, ht, resolve_attack, hg, hal, hts, hgd, hdal, hatk]
  constructor
  · intro h20
    subst h20
    rw [hdisp]
    simp only [resolve_attack_core, hroll]
    rcases hrd : roll_damage atk.damage_dice (20 == 20) d1 with ⟨dmg, det, d2⟩
    simp only [hrd, show ((20 : Nat) == 20) = true from rfl, Bool.true_or, if_pos]
    refine ⟨_, _, _, rfl, ?_, ?_, ?_⟩
    · simp
    · simp [hitEvent]
    · intro e he
      rcases List.mem_append.mp he with h3 | h4
      · simp only [List.mem_cons, List.not_mem_nil, or_false] at h3
        rcases h3 with rfl | rfl | rfl <;>
          simp [attackRollEvent, hitEvent, damageEvent]
      · split at h4
        · simp only [List.mem_singleton] at h4
          subst h4
          simp [downEvent]
        · simp at h4
  · intro hne hlt
    rw [hdisp]
    simp only [resolve_attack_core, hroll]
    have hb : (d20v == 20) = false := by simp [hne]
    have hdd : decide (defender.ac ≤ (d20v : Int) + atk.attack_bonus) = false := by
      simp [not_le.mpr hlt]
    simp [hb, hdd]

/-- Witness for C5 at a concrete input: constant stream 19 gives a chosen d20
of 20 against armor class 30 with bonus 3 — a guaranteed critical hit. -/
theorem natural20_hit_low_miss_spec_witness :
    ∃ s1 evs d2,
      resolve_action
          ⟨[⟨"a", "A", "t1", 10, 10, 10, 10, [⟨"Sword", 3, ⟨1, 4, 1⟩, "slashing"⟩], [], 0,
              ⟨1, 8, 2⟩⟩,
            ⟨"b", "B", "t2", 30, 10, 10, 10, [], [], 0, ⟨1, 8, 2⟩⟩], 1, 0, []⟩
          ⟨"a", .attack, ["b"], 0, none⟩ ⟨fun _ => 19, 0⟩
        = some (s1, evs, d2) ∧
      hitEvent
          ⟨"a", "A", "t1", 10, 10, 10, 10, [⟨"Sword", 3, ⟨1, 4, 1⟩, "slashing"⟩], [], 0,
            ⟨1, 8, 2⟩⟩
          ⟨"b", "B", "t2", 30, 10, 10, 10, [], [], 0, ⟨1, 8, 2⟩⟩ true ∈ evs ∧
      ("crit", EData.b true)
          ∈ (hitEvent
              ⟨"a", "A", "t1", 10, 10, 10, 10, [⟨"Sword", 3, ⟨1, 4, 1⟩, "slashing"⟩], [], 0,
                ⟨1, 8, 2⟩⟩
              ⟨"b", "B", "t2", 30, 10, 10, 10, [], [], 0, ⟨1, 8, 2⟩⟩ true).data ∧
      ∀ e ∈ evs, e.type ≠ "miss" := by
  exact (natural20_hit_low_miss_spec
      ⟨[⟨"a", "A", "t1", 10, 10, 10, 10, [⟨"Sword", 3, ⟨1, 4, 1⟩, "slashing"⟩], [], 0,
          ⟨1, 8, 2⟩⟩,
        ⟨"b", "B", "t2", 30, 10, 10, 10, [], [], 0, ⟨1, 8, 2⟩⟩], 1, 0, []⟩
      ⟨"a", .attack, ["b"], 0, none⟩ ⟨fun _ => 19, 0⟩
      ⟨"a", "A", "t1", 10, 10, 10, 10, [⟨"Sword", 3, ⟨1, 4, 1⟩, "slashing"⟩], [], 0,
        ⟨1, 8, 2⟩⟩
      ⟨"b", "B", "t2", 30, 10, 10, 10, [], [], 0, ⟨1, 8, 2⟩⟩
      ⟨"Sword", 3, ⟨1, 4, 1⟩, "slashing"⟩ "b" [] 20 [20]
      ⟨fun _ => 19, 1⟩ rfl (by decide) (by decide) rfl (by decide) (by decide)
      (by decide) rfl).1 rfl

/-- Every die shows at least 1, so a rolled total is at least the flat
modifier. -/
theorem roll_expr_total_ge (d : Dice) (e : DiceExpr) :
    e.modifier ≤ (d.roll_expr e).1.total := by
  obtain ⟨ht, _, _⟩ := roll_expr_def d e
  rw [ht]
  have : (0 : Int) ≤ ((d.roll_expr e).1.rolls.sum : Int) := Int.natCast_nonneg _
  omega

/-- Damage rolls are nonnegative whenever the expression's flat modifier is. -/
theorem roll_damage_nonneg (e : DiceExpr) (b : Bool) (d : Dice)
    (h : 0 ≤ e.modifier) : 0 ≤ (roll_damage e b d).1 := by
  have g1 := roll_expr_total_ge d e
  cases b
  · rcases h1 : d.roll_expr e with ⟨r1, dA⟩
    rw [h1] at g1
    dsimp only at g1
    simp only [roll_damage, Bool.false_eq_true, if_false, h1]
    omega
  · rcases h1 : d.roll_expr e with ⟨r1, dA⟩
    have g2 := roll_expr_total_ge dA e
    rcases h2 : dA.roll_expr e with ⟨r2, dB⟩
    rw [h1] at g1
    rw [h2] at g2
    dsimp only at g1 g2
    simp only [roll_damage, if_pos trivial, h1, h2]
    omega

/-- A combatant returned by `CombatState.get` is a roster member. -/
theorem get_mem (s : CombatState) (cid : String) (c : Combatant)
    (h : s.get cid = some c) : c ∈ s.combatants :=
  List.mem_of_find?_eq_some h

/-- A chosen attack profile is one of the combatant's attacks. -/
theorem choose_attack_mem (c : Combatant) (i : Nat) (atk : AttackProfile)
    (h : c.choose_attack i = some atk) : atk ∈ c.attacks := by
  unfold Combatant.choose_attack at h
  split at h
  · cases h
  · exact List.get?_mem h

/-- `addFlag` changes no combat statistics. -/
theorem addFlag_fields (c : Combatant) (f : String) :
    (c.addFlag f).hp = c.hp ∧ (c.addFlag f).max_hp = c.max_hp ∧
    (c.addFlag f).attacks = c.attacks ∧ (c.addFlag f).heal_dice = c.heal_dice := by
  unfold Combatant.addFlag
  split <;> simp

/-- Replacing one combatant preserves the hp invariant when the replacement
is in bounds. -/
theorem hpInv_setCombatant (s : CombatState) (c : Combatant)
    (h : hpInv s) (hc : 0 ≤ c.hp ∧ c.hp ≤ c.max_hp) : hpInv (s.setCombatant c) := by
  intro x hx
  simp only [CombatState.setCombatant, List.mem_map] at hx
  obtain ⟨y, hy, hxy⟩ := hx
  by_cases hid : (y.id == c.id) = true
  · rw [if_pos hid] at hxy
    subst hxy
    exact hc
  · rw [if_neg hid] at hxy
    subst hxy
    exact h y hy

/-- Replacing one combatant preserves nonnegative dice modifiers when the
replacement keeps them nonnegative. -/
theorem diceNonNeg_setCombatant (s : CombatState) (c : Combatant) (h : diceNonNeg s)
    (hc : (∀ atk ∈ c.attacks, 0 ≤ atk.damage_dice.modifier) ∧ 0 ≤ c.heal_dice.modifier) :
    diceNonNeg (s.setCombatant c) := by
  intro x hx
  simp only [CombatState.setCombatant, List.mem_map] at hx
  obtain ⟨y, hy, hxy⟩ := hx
  by_cases hid : (y.id == c.id) = true
  · rw [if_pos hid] at hxy
    subst hxy
    exact hc
  · rw [if_neg hid] at hxy
    subst hxy
    exact h y hy

/-- The attack-resolution body preserves the hp invariant and the dice
hypothesis when the attack's damage modifier is nonnegative. -/
theorem resolve_attack_core_preserves (s : CombatState) (attacker defender : Combatant)
    (atk : AttackProfile) (d : Dice) (hInv : hpInv s) (hNN : diceNonNeg s)
    (hdef : defender ∈ s.combatants) (hdmg : 0 ≤ atk.damage_dice.modifier) :
    hpInv (resolve_attack_core s attacker defender atk d).1 ∧
    diceNonNeg (resolve_attack_core s attacker defender atk d).1 := by
  rcases hr : d.d20_with_adv_state
      (if "defending" ∈ defender.flags then AdvState.dis else AdvState.normal)
    with ⟨d20v, und, d1⟩
  simp only [resolve_attack_core, hr]
  rcases hrd : roll_damage atk.damage_dice (d20v == 20) d1 with ⟨dmg, det, d2⟩
  simp only [hrd]
  have hd0 : 0 ≤ dmg := by
    have := roll_damage_nonneg atk.damage_dice (d20v == 20) d1 hdmg
    rw [hrd] at this
    exact this
  have hb := hInv defender hdef
  have hnn := hNN defender hdef
  by_cases hc : (d20v == 20 || decide (defender.ac ≤ (d20v : Int) + atk.attack_bonus)) = true
  · simp only [hc, if_true]
    constructor
    · refine hpInv_setCombatant _ _ hInv ⟨?_, ?_⟩ <;>
        · dsimp only
          simp only [max_def]
          split_ifs <;> omega
    · exact diceNonNeg_setCombatant _ _ hNN ⟨hnn.1, hnn.2⟩
  · simp only [Bool.not_eq_true] at hc
    simp only [hc, if_false]
    exact ⟨hInv, hNN⟩

/-- One resolved action preserves the hp invariant (and the nonnegative-dice
hypothesis on the roster). -/
theorem resolve_action_preserves (s : CombatState) (a : ActionDeclaration) (d : Dice)
    (s1 : CombatState) (evs : List Event) (d1 : Dice)
    (hInv : hpInv s) (hNN : diceNonNeg s) (hA : actionDiceNonNeg a)
    (h : resolve_action s a d = some (s1, evs, d1)) : hpInv s1 ∧ diceNonNeg s1 := by
  unfold resolve_action at h
  cases ha : a.type <;> simp only [ha] at h
  case attack =>
    unfold resolve_attack at h
    cases hg : s.get a.actor_id <;> simp only [hg] at h
    · exact Option.noConfusion h
    rename_i attacker
    by_cases hal : attacker.alive
    · rw [if_pos hal] at h
      cases hts : a.target_ids <;> simp only [hts] at h
      · cases h
        exact ⟨hInv, hNN⟩
      rename_i tid rest
      cases hgd : s.get tid <;> simp only [hgd] at h
      · exact Option.noConfusion h
      rename_i defender
      by_cases hdal : defender.alive
      · rw [if_pos hdal] at h
        cases hatk : attacker.choose_attack a.attack_index <;>
          simp only [hatk] at h
        · exact Option.noConfusion h
        rename_i atk
        have hmem := get_mem s tid defender hgd
        have hamem := get_mem s a.actor_id attacker hg
        have hdnn : 0 ≤ atk.damage_dice.modifier :=
          (hNN attacker hamem).1 atk
            (choose_attack_mem attacker a.attack_index atk hatk)
        have hcore := resolve_attack_core_preserves s attacker defender atk d
          hInv hNN hmem hdnn
        rcases hcc : resolve_attack_core s attacker defender atk d with ⟨sc, evc, dc⟩
        rw [hcc] at h hcore
        cases h
        exact hcore
      · rw [if_neg hdal] at h
        cases h
        exact ⟨hInv, hNN⟩
    · rw [if_neg hal] at h
      cases h
      exact ⟨hInv, hNN⟩
  case defend =>
    unfold resolve_defend at h
    cases hg : s.get a.actor_id <;> simp only [hg] at h
    · exact Option.noConfusion h
    case some actor =>
      by_cases hal : actor.alive
      · rw [if_pos hal] at h
        cases h
        have hmem := get_mem s a.actor_id actor hg
        obtain ⟨f1, f2, f3, f4⟩ := addFlag_fields actor "defending"
        constructor
        · refine hpInv_setCombatant _ _ hInv ?_
          rw [f1, f2]
          exact hInv actor hmem
        · refine diceNonNeg_setCombatant _ _ hNN ?_
          rw [f3, f4]
          exact hNN actor hmem
      · rw [if_neg hal] at h
        cases h
        exact ⟨hInv, hNN⟩
  case heal =>
    unfold resolve_heal at h
    cases hg : s.get a.actor_id <;> simp only [hg] at h
    · exact Option.noConfusion h
    case some actor =>
      have hmem := get_mem s a.actor_id actor hg
      by_cases hal : actor.alive
      · rw [if_pos hal] at h
        by_cases hz : actor.heals_remaining ≤ 0
        · rw [if_pos hz] at h
          cases h
          exact ⟨hInv, hNN⟩
        · rw [if_neg hz] at h
          rcases hre : Dice.roll_expr d (a.heal_dice_data.getD actor.heal_dice)
            with ⟨roll, dA⟩
          rw [hre] at h
          simp only at h
          cases h
          have hmod : 0 ≤ (a.heal_dice_data.getD actor.heal_dice).modifier := by
            cases hd : a.heal_dice_data with
            | none => simpa [hd] using (hNN actor hmem).2
            | some e => simpa [hd] using hA e hd
          have htot : 0 ≤ roll.total := by
            have := roll_expr_total_ge d (a.heal_dice_data.getD actor.heal_dice)
            rw [hre] at this
            dsimp only at this
            omega
          have hb := hInv actor hmem
          constructor
          · refine hpInv_setCombatant _ _ hInv ⟨?_, ?_⟩ <;>
              · dsimp only
                simp only [min_def]
                split_ifs <;> omega
          · exact diceNonNeg_setCombatant _ _ hNN
              ⟨(hNN actor hmem).1, (hNN actor hmem).2⟩
      · rw [if_neg hal] at h
        cases h
        exact ⟨hInv, hNN⟩
  case wait =>
    unfold resolve_wait at h
    cases hg : s.get a.actor_id <;> simp only [hg] at h
    · exact Option.noConfusion h
    case some actor =>
      by_cases hal : actor.alive
      · rw [if_pos hal] at h
        cases h
        exact ⟨hInv, hNN⟩
      · rw [if_neg hal] at h
        cases h
        exact ⟨hInv, hNN⟩

/-- Invariant preservation along a resolved action sequence. -/
theorem resolve_seq_preserves (acts : List ActionDeclaration) :
    ∀ (s : CombatState) (d : Dice) (s1 : CombatState) (d1 : Dice),
      hpInv s → diceNonNeg s → (∀ a ∈ acts, actionDiceNonNeg a) →
      resolve_seq s d acts = some (s1, d1) → hpInv s1 ∧ diceNonNeg s1 := by
  induction acts with
  | nil =>
    intro s d s1 d1 hInv hNN _ h
    cases h
    exact ⟨hInv, hNN⟩
  | cons a rest ih =>
    intro s d s1 d1 hInv hNN hacts h
    unfold resolve_seq at h
    cases hr : resolve_action s a d <;> rw [hr] at h
    · cases h
    case some x =>
      rcases x with ⟨s2, evs, d2⟩
      have step := resolve_action_preserves s a d s2 evs d2 hInv hNN
        (hacts a (List.mem_cons_self a rest)) hr
      exact ih s2 d2 s1 d1 step.1 step.2
        (fun b hb => hacts b (List.mem_cons_of_mem a hb)) h

/-- C4 (amended): after any sequence of resolved actions, every combatant
satisfies `0 ≤ hp ≤ max_hp`, provided every reachable damage/heal dice
expression (roster attacks, default heal dice, and per-action overrides) has a
nonnegative flat modifier.  Damage clamps hp at a floor of 0 and healing caps
it at `max_hp`; without the modifier proviso the invariant fails (see the
counterexample). -/
theorem hp_invariant_spec (acts : List ActionDeclaration) (s : CombatState) (d : Dice)
    (s1 : CombatState) (d1 : Dice) (hInv : hpInv s) (hNN : diceNonNeg s)
    (hacts : ∀ a ∈ acts, actionDiceNonNeg a)
    (h : resolve_seq s d acts = some (s1, d1)) :
    ∀ c ∈ s1.combatants, 0 ≤ c.hp ∧ c.hp ≤ c.max_hp :=
  (resolve_seq_preserves acts s d s1 d1 hInv hNN hacts h).1

/-- Witness for C4's amended theorem at a concrete input: one heal action with
nonnegative modifiers keeps `0 ≤ hp ≤ max_hp` (hp 5 heals to 8 of 10). -/
theorem hp_invariant_spec_witness :
    0 ≤ (⟨"a", "A", "t", 10, 10, 8, 10, [], [], 0, ⟨1, 8, 2⟩⟩ : Combatant).hp ∧
    (⟨"a", "A", "t", 10, 10, 8, 10, [], [], 0, ⟨1, 8, 2⟩⟩ : Combatant).hp
      ≤ (⟨"a", "A", "t", 10, 10, 8, 10, [], [], 0, ⟨1, 8, 2⟩⟩ : Combatant).max_hp :=
  hp_invariant_spec [⟨"a", .heal, ["a"], 0, none⟩]
    ⟨[⟨"a", "A", "t", 10, 10, 5, 10, [], [], 1, ⟨1, 8, 2⟩⟩], 1, 0, []⟩
    ⟨fun _ => 0, 0⟩
    ⟨[⟨"a", "A", "t", 10, 10, 8, 10, [], [], 0, ⟨1, 8, 2⟩⟩], 1, 0, []⟩
    ⟨fun _ => 0, 1⟩
    (by unfold hpInv; decide) (by unfold diceNonNeg; decide)
    (by
      intro a ha e he
      rw [List.mem_singleton] at ha
      subst ha
      cases he)
    rfl
    ⟨"a", "A", "t", 10, 10, 8, 10, [], [], 0, ⟨1, 8, 2⟩⟩ (by decide)

/-- C4 counterexample: the claim as stated — `0 ≤ hp ≤ max_hp` after any
resolved action sequence — is false: a validly constructed combatant whose
heal dice is the legal notation 1d1-100 heals from hp 5 to hp -94 (the heal
branch caps at `max_hp` but has no floor at 0). -/
theorem hp_invariant_counterexample :
    mkCombatant "a" "A" "t" 10 10 5 10 [] 1 ⟨1, 1, -100⟩
        = .ok ⟨"a", "A", "t", 10, 10, 5, 10, [], [], 1, ⟨1, 1, -100⟩⟩ ∧
    (resolve_seq ⟨[⟨"a", "A", "t", 10, 10, 5, 10, [], [], 1, ⟨1, 1, -100⟩⟩], 1, 0, []⟩
        ⟨fun _ => 0, 0⟩ [⟨"a", .heal, ["a"], 0, none⟩]).map
        (fun r => r.1.combatants.map fun c => c.hp)
      = some [-94] ∧
    ((-94 : Int) < 0) := by
  refine ⟨rfl, rfl, by decide⟩

/-- C3 (modelled from the spec; the controller-dispatching `CombatSession.run`
is absent from `src/`): on a living combatant's turn, the session turn body
resolves exactly the action obtained from the controller registered for that
combatant's id — a combatant with no registered controller defaults to a wait
action — after clearing the actor's "defending" flag and emitting the
turn-start event. -/
theorem session_controller_dispatch (controllers : List (String × Controller))
    (s : CombatState) (d : Dice) (cid : String) (actor : Combatant)
    (hcid : s.current_turn_id = some cid) (hg : s.get cid = some actor)
    (hal : actor.alive) :
    (∀ ctrl, controllers.lookup cid = some ctrl →
      controllerAction controllers (s.setCombatant (actor.discardFlag "defending")) cid
        = ctrl (s.setCombatant (actor.discardFlag "defending")) cid) ∧
    (controllers.lookup cid = none →
      controllerAction controllers (s.setCombatant (actor.discardFlag "defending")) cid
        = { actor_id := cid, type := .wait }) ∧
    sessionTurn controllers s d
      = (match resolve_action (s.setCombatant (actor.discardFlag "defending"))
            (controllerAction controllers
              (s.setCombatant (actor.discardFlag "defending")) cid) d with
         | none => none
         | some (s2, evs, d1) =>
           match s2.advance_turn with
           | none => none
           | some s3 => some (s3, turnStartEvent s.round_num cid actor.name :: evs, d1)) := by
  refine ⟨?_, ?_, ?_⟩
  · intro ctrl hc
    simp [controllerAction, hc]
  · intro hc
    simp [controllerAction, hc]
  · simp only [sessionTurn, hcid, hg, if_pos hal]

/-- Witness for C3 at a concrete input: with a registered controller for "a",
the dispatched action is that controller's output (a defend declaration). -/
theorem session_controller_dispatch_witness :
    controllerAction [("a", fun _ c => ⟨c, .defend, [], 0, none⟩)]
        ((⟨[⟨"a", "A", "t", 10, 10, 5, 10, [], [], 0, ⟨1, 8, 2⟩⟩], 1, 0, ["a"]⟩ :
            CombatState).setCombatant
          ((⟨"a", "A", "t", 10, 10, 5, 10, [], [], 0, ⟨1, 8, 2⟩⟩ :
              Combatant).discardFlag "defending"))
        "a"
      = ⟨"a", .defend, [], 0, none⟩ := by
  exact (session_controller_dispatch [("a", fun _ c => ⟨c, .defend, [], 0, none⟩)]
      ⟨[⟨"a", "A", "t", 10, 10, 5, 10, [], [], 0, ⟨1, 8, 2⟩⟩], 1, 0, ["a"]⟩
      ⟨fun _ => 0, 0⟩ "a" ⟨"a", "A", "t", 10, 10, 5, 10, [], [], 0, ⟨1, 8, 2⟩⟩
      rfl (by decide) (by decide)).1 _ rfl

/-- The score list is as long as the candidate list. -/
theorem score_list_length (cfg : PlannerConfig) (mkDice : Nat → Dice) (s : CombatState)
    (team : String) : ∀ (l : List ActionDeclaration) (rng : PRng) (qs : List ℚ)
    (rng2 : PRng), score_list cfg mkDice s team l rng = some (qs, rng2) →
    qs.length = l.length := by
  intro l
  induction l with
  | nil =>
    intro rng qs rng2 h
    unfold score_list at h
    cases h
    rfl
  | cons a t ih =>
    intro rng qs rng2 h
    unfold score_list at h
    cases hsc : score_action cfg mkDice s team a rng <;> simp only [hsc] at h
    · exact Option.noConfusion h
    rename_i p
    rcases p with ⟨sc, rngA⟩
    cases hsl : score_list cfg mkDice s team t rngA <;> simp only [hsl] at h
    · exact Option.noConfusion h
    rename_i p2
    rcases p2 with ⟨qs2, rngB⟩
    cases h
    simp [ih rngA qs2 rngB hsl]

/-- Indexing a zip is indexing both lists. -/
theorem zip_get?_iff {α β : Type} : ∀ (l1 : List α) (l2 : List β) (i : Nat) (a : α)
    (b : β), (l1.zip l2).get? i = some (a, b) ↔
      (l1.get? i = some a ∧ l2.get? i = some b) := by
  intro l1
  induction l1 with
  | nil => intro l2 i a b; simp
  | cons x t ih =>
    intro l2 i a b
    cases l2 with
    | nil => simp
    | cons y t2 =>
      cases i with
      | zero =>
        simp only [List.zip_cons_cons, List.get?]
        constructor
        · intro h
          cases h
          exact ⟨rfl, rfl⟩
        · rintro ⟨h1, h2⟩
          cases h1
          cases h2
          rfl
      | succ j =>
        simpa using ih t2 j a b

/-- The candidate loop equals its rng-free selection kernel on the computed
score list. -/
theorem plan_loop_eq_bestFrom (cfg : PlannerConfig) (mkDice : Nat → Dice)
    (s : CombatState) (team : String) : ∀ (l : List ActionDeclaration) (qs : List ℚ)
    (b : ActionDeclaration) (bs : Option ℚ) (rng rng2 : PRng),
    score_list cfg mkDice s team l rng = some (qs, rng2) →
    plan_loop cfg mkDice s team l b bs rng = some (bestFrom b bs (l.zip qs), rng2) := by
  intro l
  induction l with
  | nil =>
    intro qs b bs rng rng2 h
    unfold score_list at h
    cases h
    rfl
  | cons a t ih =>
    intro qs b bs rng rng2 h
    unfold score_list at h
    cases hsc : score_action cfg mkDice s team a rng <;> simp only [hsc] at h
    · exact Option.noConfusion h
    rename_i p
    rcases p with ⟨sc, rngA⟩
    cases hsl : score_list cfg mkDice s team t rngA <;> simp only [hsl] at h
    · exact Option.noConfusion h
    rename_i p2
    rcases p2 with ⟨qs2, rngB⟩
    cases h
    unfold plan_loop
    rw [hsc]
    simp only [List.zip_cons_cons, bestFrom]
    by_cases hb : scoreBeats sc bs = true
    · rw [if_pos hb, if_pos hb]
      exact ih qs2 a (some sc) rngA rngB hsl
    · rw [if_neg hb, if_neg hb]
      exact ih qs2 b bs rngA rngB hsl

/-- First-wins argmax characterization of the selection kernel: starting from
a best candidate with score `q`, the result either is that candidate (all
later scores at most `q`) or the earliest strictly-better candidate, which
dominates everything. -/
theorem bestFrom_spec : ∀ (prs : List (ActionDeclaration × ℚ)) (b : ActionDeclaration)
    (q : ℚ),
    (bestFrom b (some q) prs = b ∧ ∀ p ∈ prs, p.2 ≤ q) ∨
    (∃ i p, prs.get? i = some p ∧ bestFrom b (some q) prs = p.1 ∧ q < p.2 ∧
      (∀ j pj, prs.get? j = some pj → pj.2 ≤ p.2) ∧
      (∀ j pj, j < i → prs.get? j = some pj → pj.2 < p.2)) := by
  intro prs
  induction prs with
  | nil => intro b q; exact Or.inl ⟨rfl, by simp⟩
  | cons hd tl ih =>
    intro b q
    rcases hd with ⟨a, sc⟩
    by_cases hbeat : q < sc
    · have hsb : scoreBeats sc (some q) = true := by simp [scoreBeats, hbeat]
      rcases ih a sc with ⟨heq, hall⟩ | ⟨i, p, hget, heq, hlt, hmax, hfirst⟩
      · refine Or.inr ⟨0, (a, sc), rfl, ?_, hbeat, ?_, ?_⟩
        · simp only [bestFrom, hsb, if_true]
          exact heq
        · intro j pj hj
          cases j with
          | zero =>
            cases hj
            exact le_refl sc
          | succ j2 => exact hall pj (List.get?_mem hj)
        · intro j pj hjlt
          omega
      · refine Or.inr ⟨i + 1, p, hget, ?_, lt_trans hbeat hlt, ?_, ?_⟩
        · simp only [bestFrom, hsb, if_true]
          exact heq
        · intro j pj hj
          cases j with
          | zero =>
            cases hj
            exact le_of_lt hlt
          | succ j2 => exact hmax j2 pj hj
        · intro j pj hjlt hj
          cases j with
          | zero =>
            cases hj
            exact hlt
          | succ j2 => exact hfirst j2 pj (by omega) hj
    · have hsb : scoreBeats sc (some q) = false := by simp [scoreBeats, not_lt.mp hbeat]
      rcases ih b q with ⟨heq, hall⟩ | ⟨i, p, hget, heq, hlt, hmax, hfirst⟩
      · refine Or.inl ⟨?_, ?_⟩
        · simp only [bestFrom, hsb, if_false]
          exact heq
        · intro p hp
          rcases List.mem_cons.mp hp with rfl | hp2
          · exact not_lt.mp hbeat
          · exact hall p hp2
      · refine Or.inr ⟨i + 1, p, hget, ?_, hlt, ?_, ?_⟩
        · simp only [bestFrom, hsb, if_false]
          exact heq
        · intro j pj hj
          cases j with
          | zero =>
            cases hj
            exact le_trans (not_lt.mp hbeat) (le_of_lt hlt)
          | succ j2 => exact hmax j2 pj hj
        · intro j pj hjlt hj
          cases j with
          | zero =>
            cases hj
            exact lt_of_le_of_lt (not_lt.mp hbeat) hlt
          | succ j2 => exact hfirst j2 pj (by omega) hj

/-- C9 counterexample: the claim's "exactly one exploration sample is drawn
per decision" fails at ε = 0 — the `epsilon > 0 and rng.random() < epsilon`
short-circuit draws no sample at all (the rng cursor does not advance). -/
theorem planner_one_sample_counterexample :
    (exploration_stage ⟨0, 0⟩ ⟨fun _ => 0, fun _ => 0, 0⟩).2.pos = 0 ∧
    ¬ (exploration_stage ⟨0, 0⟩ ⟨fun _ => 0, fun _ => 0, 0⟩).2.pos = 0 + 1 := by
  constructor
  · rfl
  · intro h
    exact absurd h (by decide)

/-- C9 (amended): for a planner decision with a non-empty legal list — at
most one exploration sample is drawn: exactly one when ε > 0 and none when
ε ≤ 0; when ε > 0 and the sample is below ε, a uniformly indexed legal action
is returned without any scoring; candidate scores are rollout averages (a
single forward sample when rollouts ≤ 0); and on the non-exploring path the
first candidate with the strictly highest score is returned, the earlier
candidate winning exact ties. -/
theorem planner_decision_spec (cfg : PlannerConfig) (mkDice : Nat → Dice)
    (s : CombatState) (actor_id : String) (rng : PRng) (actor : Combatant)
    (a0 : ActionDeclaration) (rest : List ActionDeclaration)
    (hg : s.get actor_id = some actor)
    (hl : list_actions s actor = a0 :: rest) :
    ((0 < cfg.epsilon → (exploration_stage cfg rng).2.pos = rng.pos + 1) ∧
     (cfg.epsilon ≤ 0 → (exploration_stage cfg rng).2 = rng)) ∧
    (0 < cfg.epsilon → rng.floats rng.pos < cfg.epsilon →
      ∀ act, (a0 :: rest).get? (rng.nats (rng.pos + 1) % (a0 :: rest).length)
          = some act →
        choose_action cfg mkDice s actor_id rng
          = some (act, ⟨rng.floats, rng.nats, rng.pos + 2⟩)) ∧
    (∀ (act : ActionDeclaration) (rng0 : PRng),
      (cfg.rollouts ≤ 0 → ∀ after rngA,
        simulate_once mkDice s act rng0 = (some after, rngA) →
        score_action cfg mkDice s actor.team act rng0
          = some (evaluate_delta s after actor.team, rngA)) ∧
      (0 < cfg.rollouts → ∀ total rngA,
        score_rollouts mkDice s actor.team act cfg.rollouts.toNat 0 rng0
            = some (total, rngA) →
        score_action cfg mkDice s actor.team act rng0
          = some (total / (cfg.rollouts : ℚ), rngA))) ∧
    (∀ rng1, exploration_stage cfg rng = (false, rng1) →
      ∀ qs rng2, score_list cfg mkDice s actor.team (a0 :: rest) rng1
          = some (qs, rng2) →
        ∃ i act q, (a0 :: rest).get? i = some act ∧ qs.get? i = some q ∧
          choose_action cfg mkDice s actor_id rng = some (act, rng2) ∧
          (∀ j qj, qs.get? j = some qj → qj ≤ q) ∧
          (∀ j qj, j < i → qs.get? j = some qj → qj < q)) := by
  refine ⟨⟨?_, ?_⟩, ?_, ?_, ?_⟩
  · intro hε
    simp [exploration_stage, hε, PRng.random]
  · intro hε
    simp [exploration_stage, not_lt.mpr hε]
  · intro hε hx act hact
    have hexp : exploration_stage cfg rng
        = (true, ⟨rng.floats, rng.nats, rng.pos + 1⟩) := by
      simp [exploration_stage, hε, PRng.random, hx]
    unfold choose_action
    simp only [hg, hl, hexp]
    simp only [if_true, PRng.choice]
    rw [hact]
  · intro act rng0
    constructor
    · intro hr after rngA hsim
      simp only [score_action, if_pos hr, hsim]
    · intro hr total rngA hsr
      simp only [score_action, if_neg (not_le.mpr hr), hsr]
  · intro rng1 hexp qs rng2 hsl
    have hca : choose_action cfg mkDice s actor_id rng
        = plan_loop cfg mkDice s actor.team (a0 :: rest) a0 none rng1 := by
      unfold choose_action
      simp only [hg, hl, hexp]
      simp
    have hlen := score_list_length cfg mkDice s actor.team (a0 :: rest) rng1 qs rng2 hsl
    cases qs with
    | nil => simp at hlen
    | cons q0 qs2 =>
      have hpl := plan_loop_eq_bestFrom cfg mkDice s actor.team (a0 :: rest)
        (q0 :: qs2) a0 none rng1 rng2 hsl
      have hbf : bestFrom a0 none ((a0 :: rest).zip (q0 :: qs2))
          = bestFrom a0 (some q0) (rest.zip qs2) := rfl
      have hres : choose_action cfg mkDice s actor_id rng
          = some (bestFrom a0 (some q0) (rest.zip qs2), rng2) := by
        rw [hca, hpl, hbf]
      have hlen2 : qs2.length = rest.length := by simpa using hlen
      rcases bestFrom_spec (rest.zip qs2) a0 q0 with
        ⟨heq, hall⟩ | ⟨i, p, hget, heq, hlt, hmax, hfirst⟩
      · refine ⟨0, a0, q0, rfl, rfl, by rw [hres, heq], ?_, ?_⟩
        · intro j qj hj
          cases j with
          | zero =>
            cases hj
            exact le_refl q0
          | succ j2 =>
            have hj2 : qs2.get? j2 = some qj := hj
            have hjlt : j2 < qs2.length := by
              by_contra hc
              push_neg at hc
              rw [List.get?_eq_none.mpr hc] at hj2
              cases hj2
            obtain ⟨rj, hrj⟩ : ∃ rj, rest.get? j2 = some rj :=
              ⟨_, List.get?_eq_get (by omega)⟩
            have hzip : (rest.zip qs2).get? j2 = some (rj, qj) :=
              (zip_get?_iff rest qs2 j2 rj qj).mpr ⟨hrj, hj2⟩
            exact hall (rj, qj) (List.get?_mem hzip)
        · intro j qj hjlt
          omega
      · rcases p with ⟨pa, pq⟩
        obtain ⟨hri, hqi⟩ := (zip_get?_iff rest qs2 i pa pq).mp hget
        refine ⟨i + 1, pa, pq, hri, hqi, by rw [hres, heq], ?_, ?_⟩
        · intro j qj hj
          cases j with
          | zero =>
            cases hj
            exact le_of_lt hlt
          | succ j2 =>
            have hj2 : qs2.get? j2 = some qj := hj
            have hjlt : j2 < qs2.length := by
              by_contra hc
              push_neg at hc
              rw [List.get?_eq_none.mpr hc] at hj2
              cases hj2
            obtain ⟨rj, hrj⟩ : ∃ rj, rest.get? j2 = some rj :=
              ⟨_, List.get?_eq_get (by omega)⟩
            have hzip : (rest.zip qs2).get? j2 = some (rj, qj) :=
              (zip_get?_iff rest qs2 j2 rj qj).mpr ⟨hrj, hj2⟩
            exact hmax j2 (rj, qj) hzip
        · intro j qj hjlt hj
          cases j with
          | zero =>
            cases hj
            exact hlt
          | succ j2 =>
            have hj2 : qs2.get? j2 = some qj := hj
            have hjlt2 : j2 < qs2.length := by
              by_contra hc
              push_neg at hc
              rw [List.get?_eq_none.mpr hc] at hj2
              cases hj2
            obtain ⟨rj, hrj⟩ : ∃ rj, rest.get? j2 = some rj :=
              ⟨_, List.get?_eq_get (by omega)⟩
            have hzip : (rest.zip qs2).get? j2 = some (rj, qj) :=
              (zip_get?_iff rest qs2 j2 rj qj).mpr ⟨hrj, hj2⟩
            exact hfirst j2 (rj, qj) (by omega) hzip

/-- Witness for C9 at a concrete input: ε = 0 and rollouts = 0, a
two-combatant state with candidates attack, defend, wait; the theorem's
non-exploring conjunct applied with all hypotheses discharged by evaluation
(the scores are the single-sample deltas of the three simulated outcomes). -/
theorem planner_decision_spec_witness :
    ∃ i act q,
      ([attackDecl
            ⟨"h", "H", "A", 10, 10, 10, 10, [⟨"S", 0, ⟨1, 4, 0⟩, "x"⟩], [], 0, ⟨1, 8, 2⟩⟩
            ⟨"g", "G", "B", 1, 10, 10, 10, [], [], 0, ⟨1, 8, 2⟩⟩,
         defendDecl
            ⟨"h", "H", "A", 10, 10, 10, 10, [⟨"S", 0, ⟨1, 4, 0⟩, "x"⟩], [], 0, ⟨1, 8, 2⟩⟩,
         waitDecl
            ⟨"h", "H", "A", 10, 10, 10, 10, [⟨"S", 0, ⟨1, 4, 0⟩, "x"⟩], [], 0, ⟨1, 8, 2⟩⟩] :
          List ActionDeclaration).get? i = some act ∧
      ([evaluate_delta (⟨[⟨"h", "H", "A", 10, 10, 10, 10, [⟨"S", 0, ⟨1, 4, 0⟩, "x"⟩], [], 0, ⟨1, 8, 2⟩⟩,
        ⟨"g", "G", "B", 1, 10, 10, 10, [], [], 0, ⟨1, 8, 2⟩⟩], 1, 0, []⟩ : CombatState)
        (⟨[⟨"h", "H", "A", 10, 10, 10, 10, [⟨"S", 0, ⟨1, 4, 0⟩, "x"⟩], [], 0, ⟨1, 8, 2⟩⟩,
        ⟨"g", "G", "B", 1, 10, 9, 10, [], [], 0, ⟨1, 8, 2⟩⟩], 1, 0, []⟩ : CombatState) "A",
      evaluate_delta (⟨[⟨"h", "H", "A", 10, 10, 10, 10, [⟨"S", 0, ⟨1, 4, 0⟩, "x"⟩], [], 0, ⟨1, 8, 2⟩⟩,
        ⟨"g", "G", "B", 1, 10, 10, 10, [], [], 0, ⟨1, 8, 2⟩⟩], 1, 0, []⟩ : CombatState)
        (⟨[⟨"h", "H", "A", 10, 10, 10, 10, [⟨"S", 0, ⟨1, 4, 0⟩, "x"⟩], ["defending"], 0, ⟨1, 8, 2⟩⟩,
        ⟨"g", "G", "B", 1, 10, 10, 10, [], [], 0, ⟨1, 8, 2⟩⟩], 1, 0, []⟩ : CombatState) "A",
      evaluate_delta (⟨[⟨"h", "H", "A", 10, 10, 10, 10, [⟨"S", 0, ⟨1, 4, 0⟩, "x"⟩], [], 0, ⟨1, 8, 2⟩⟩,
        ⟨"g", "G", "B", 1, 10, 10, 10, [], [], 0, ⟨1, 8, 2⟩⟩], 1, 0, []⟩ : CombatState)
        (⟨[⟨"h", "H", "A", 10, 10, 10, 10, [⟨"S", 0, ⟨1, 4, 0⟩, "x"⟩], [], 0, ⟨1, 8, 2⟩⟩,
        ⟨"g", "G", "B", 1, 10, 10, 10, [], [], 0, ⟨1, 8, 2⟩⟩], 1, 0, []⟩ : CombatState) "A"] : List ℚ).get? i = some q ∧
      choose_action ⟨0, 0⟩ (fun k => ⟨fun _ => k, 0⟩)
          (⟨[⟨"h", "H", "A", 10, 10, 10, 10, [⟨"S", 0, ⟨1, 4, 0⟩, "x"⟩], [], 0, ⟨1, 8, 2⟩⟩,
        ⟨"g", "G", "B", 1, 10, 10, 10, [], [], 0, ⟨1, 8, 2⟩⟩], 1, 0, []⟩ : CombatState)
          "h" ⟨fun _ => 0, fun _ => 0, 0⟩
        = some (act, ⟨fun _ => 0, fun _ => 0, 3⟩) ∧
      (∀ j qj, ([evaluate_delta (⟨[⟨"h", "H", "A", 10, 10, 10, 10, [⟨"S", 0, ⟨1, 4, 0⟩, "x"⟩], [], 0, ⟨1, 8, 2⟩⟩,
        ⟨"g", "G", "B", 1, 10, 10, 10, [], [], 0, ⟨1, 8, 2⟩⟩], 1, 0, []⟩ : CombatState)
        (⟨[⟨"h", "H", "A", 10, 10, 10, 10, [⟨"S", 0, ⟨1, 4, 0⟩, "x"⟩], [], 0, ⟨1, 8, 2⟩⟩,
        ⟨"g", "G", "B", 1, 10, 9, 10, [], [], 0, ⟨1, 8, 2⟩⟩], 1, 0, []⟩ : CombatState) "A",
      evaluate_delta (⟨[⟨"h", "H", "A", 10, 10, 10, 10, [⟨"S", 0, ⟨1, 4, 0⟩, "x"⟩], [], 0, ⟨1, 8, 2⟩⟩,
        ⟨"g", "G", "B", 1, 10, 10, 10, [], [], 0, ⟨1, 8, 2⟩⟩], 1, 0, []⟩ : CombatState)
        (⟨[⟨"h", "H", "A", 10, 10, 10, 10, [⟨"S", 0, ⟨1, 4, 0⟩, "x"⟩], ["defending"], 0, ⟨1, 8, 2⟩⟩,
        ⟨"g", "G", "B", 1, 10, 10, 10, [], [], 0, ⟨1, 8, 2⟩⟩], 1, 0, []⟩ : CombatState) "A",
      evaluate_delta (⟨[⟨"h", "H", "A", 10, 10, 10, 10, [⟨"S", 0, ⟨1, 4, 0⟩, "x"⟩], [], 0, ⟨1, 8, 2⟩⟩,
        ⟨"g", "G", "B", 1, 10, 10, 10, [], [], 0, ⟨1, 8, 2⟩⟩], 1, 0, []⟩ : CombatState)
        (⟨[⟨"h", "H", "A", 10, 10, 10, 10, [⟨"S", 0, ⟨1, 4, 0⟩, "x"⟩], [], 0, ⟨1, 8, 2⟩⟩,
        ⟨"g", "G", "B", 1, 10, 10, 10, [], [], 0, ⟨1, 8, 2⟩⟩], 1, 0, []⟩ : CombatState) "A"] : List ℚ).get? j = some qj → qj ≤ q) ∧
      (∀ j qj, j < i → ([evaluate_delta (⟨[⟨"h", "H", "A", 10, 10, 10, 10, [⟨"S", 0, ⟨1, 4, 0⟩, "x"⟩], [], 0, ⟨1, 8, 2⟩⟩,
        ⟨"g", "G", "B", 1, 10, 10, 10, [], [], 0, ⟨1, 8, 2⟩⟩], 1, 0, []⟩ : CombatState)
        (⟨[⟨"h", "H", "A", 10, 10, 10, 10, [⟨"S", 0, ⟨1, 4, 0⟩, "x"⟩], [], 0, ⟨1, 8, 2⟩⟩,
        ⟨"g", "G", "B", 1, 10, 9, 10, [], [], 0, ⟨1, 8, 2⟩⟩], 1, 0, []⟩ : CombatState) "A",
      evaluate_delta (⟨[⟨"h", "H", "A", 10, 10, 10, 10, [⟨"S", 0, ⟨1, 4, 0⟩, "x"⟩], [], 0, ⟨1, 8, 2⟩⟩,
        ⟨"g", "G", "B", 1, 10, 10, 10, [], [], 0, ⟨1, 8, 2⟩⟩], 1, 0, []⟩ : CombatState)
        (⟨[⟨"h", "H", "A", 10, 10, 10, 10, [⟨"S", 0, ⟨1, 4, 0⟩, "x"⟩], ["defending"], 0, ⟨1, 8, 2⟩⟩,
        ⟨"g", "G", "B", 1, 10, 10, 10, [], [], 0, ⟨1, 8, 2⟩⟩], 1, 0, []⟩ : CombatState) "A",
      evaluate_delta (⟨[⟨"h", "H", "A", 10, 10, 10, 10, [⟨"S", 0, ⟨1, 4, 0⟩, "x"⟩], [], 0, ⟨1, 8, 2⟩⟩,
        ⟨"g", "G", "B", 1, 10, 10, 10, [], [], 0, ⟨1, 8, 2⟩⟩], 1, 0, []⟩ : CombatState)
        (⟨[⟨"h", "H", "A", 10, 10, 10, 10, [⟨"S", 0, ⟨1, 4, 0⟩, "x"⟩], [], 0, ⟨1, 8, 2⟩⟩,
        ⟨"g", "G", "B", 1, 10, 10, 10, [], [], 0, ⟨1, 8, 2⟩⟩], 1, 0, []⟩ : CombatState) "A"] : List ℚ).get? j = some qj → qj < q) := by
  exact (planner_decision_spec ⟨0, 0⟩ (fun k => ⟨fun _ => k, 0⟩)
      (⟨[⟨"h", "H", "A", 10, 10, 10, 10, [⟨"S", 0, ⟨1, 4, 0⟩, "x"⟩], [], 0, ⟨1, 8, 2⟩⟩,
        ⟨"g", "G", "B", 1, 10, 10, 10, [], [], 0, ⟨1, 8, 2⟩⟩], 1, 0, []⟩ : CombatState)
      "h" ⟨fun _ => 0, fun _ => 0, 0⟩
      ⟨"h", "H", "A", 10, 10, 10, 10, [⟨"S", 0, ⟨1, 4, 0⟩, "x"⟩], [], 0, ⟨1, 8, 2⟩⟩
      (attackDecl
        ⟨"h", "H", "A", 10, 10, 10, 10, [⟨"S", 0, ⟨1, 4, 0⟩, "x"⟩], [], 0, ⟨1, 8, 2⟩⟩
        ⟨"g", "G", "B", 1, 10, 10, 10, [], [], 0, ⟨1, 8, 2⟩⟩)
      [defendDecl
          ⟨"h", "H", "A", 10, 10, 10, 10, [⟨"S", 0, ⟨1, 4, 0⟩, "x"⟩], [], 0, ⟨1, 8, 2⟩⟩,
       waitDecl
          ⟨"h", "H", "A", 10, 10, 10, 10, [⟨"S", 0, ⟨1, 4, 0⟩, "x"⟩], [], 0, ⟨1, 8, 2⟩⟩]
      rfl rfl).2.2.2
    ⟨fun _ => 0, fun _ => 0, 0⟩ rfl
    ([evaluate_delta (⟨[⟨"h", "H", "A", 10, 10, 10, 10, [⟨"S", 0, ⟨1, 4, 0⟩, "x"⟩], [], 0, ⟨1, 8, 2⟩⟩,
        ⟨"g", "G", "B", 1, 10, 10, 10, [], [], 0, ⟨1, 8, 2⟩⟩], 1, 0, []⟩ : CombatState)
        (⟨[⟨"h", "H", "A", 10, 10, 10, 10, [⟨"S", 0, ⟨1, 4, 0⟩, "x"⟩], [], 0, ⟨1, 8, 2⟩⟩,
        ⟨"g", "G", "B", 1, 10, 9, 10, [], [], 0, ⟨1, 8, 2⟩⟩], 1, 0, []⟩ : CombatState) "A",
      evaluate_delta (⟨[⟨"h", "H", "A", 10, 10, 10, 10, [⟨"S", 0, ⟨1, 4, 0⟩, "x"⟩], [], 0, ⟨1, 8, 2⟩⟩,
        ⟨"g", "G", "B", 1, 10, 10, 10, [], [], 0, ⟨1, 8, 2⟩⟩], 1, 0, []⟩ : CombatState)
        (⟨[⟨"h", "H", "A", 10, 10, 10, 10, [⟨"S", 0, ⟨1, 4, 0⟩, "x"⟩], ["defending"], 0, ⟨1, 8, 2⟩⟩,
        ⟨"g", "G", "B", 1, 10, 10, 10, [], [], 0, ⟨1, 8, 2⟩⟩], 1, 0, []⟩ : CombatState) "A",
      evaluate_delta (⟨[⟨"h", "H", "A", 10, 10, 10, 10, [⟨"S", 0, ⟨1, 4, 0⟩, "x"⟩], [], 0, ⟨1, 8, 2⟩⟩,
        ⟨"g", "G", "B", 1, 10, 10, 10, [], [], 0, ⟨1, 8, 2⟩⟩], 1, 0, []⟩ : CombatState)
        (⟨[⟨"h", "H", "A", 10, 10, 10, 10, [⟨"S", 0, ⟨1, 4, 0⟩, "x"⟩], [], 0, ⟨1, 8, 2⟩⟩,
        ⟨"g", "G", "B", 1, 10, 10, 10, [], [], 0, ⟨1, 8, 2⟩⟩], 1, 0, []⟩ : CombatState) "A"] : List ℚ)
    ⟨fun _ => 0, fun _ => 0, 3⟩ rfl

end Icos
